import Mathlib

/-!
# Verification of the ContextHub setup script (`setup-ai-tools.py`)

This file gives a shallow embedding of the ContextHub setup script.  Paths are
modelled as lists of path components relative to the repository root (the
script's working directory); the working directory itself is an abstract
absolute path `cwd`, also a list of components.  The filesystem is an
association list from relative paths to nodes (regular file with byte content,
symbolic link with an absolute target, or directory).  `Path.exists()` follows
symbolic links, which we model with a fuel-bounded resolution (a dangling or
cyclic link therefore does not "exist", matching `pathlib`).

Fallible filesystem primitives return `Option`/`Except`; Python exceptions are
modelled as the `none`/`.error` outcome.  Spurious I/O errors (permission
errors etc.) that the script catches are modelled by explicit boolean fault
flags injected into the functions that contain `try`/`except` blocks.  File
metadata (`shutil.copy2` preserves timestamps) and the wall clock are not
tracked: the timestamp used for backup names is an abstract string parameter,
held constant during one run.
-/

/-- A path relative to the repository root, as a list of components. -/
abbrev MPath := List String

/-- An absolute path, as a list of components. -/
abbrev AbsPath := List String

/-- A filesystem node: regular file (with byte content), symlink (with an
absolute link target, as produced by `Path.resolve()`), or directory. -/
inductive FSNode where
  | file (content : String)
  | symlink (target : AbsPath)
  | dir
  deriving DecidableEq, Repr

/-- The filesystem: an association list from relative paths to nodes. -/
abbrev FS := List (MPath × FSNode)

/-- Look up the node stored at a path (no symlink following): the `lstat` view. -/
def FS.get : FS → MPath → Option FSNode
  | [], _ => none
  | e :: rest, p => if e.1 = p then some e.2 else FS.get rest p

/-- Remove every entry at a path (models `unlink`/`rmdir`). -/
def FS.removeP : FS → MPath → FS
  | [], _ => []
  | e :: rest, p => if e.1 = p then FS.removeP rest p else e :: FS.removeP rest p

/-- Store a node at a path, replacing whatever was there. -/
def FS.set (fs : FS) (p : MPath) (n : FSNode) : FS :=
  (p, n) :: FS.removeP fs p

/-- Strip the working directory from an absolute path, giving the
root-relative path when the absolute path lies below `cwd`. -/
def stripCwd : AbsPath → AbsPath → Option MPath
  | [], t => some t
  | c :: cs, t :: ts => if c = t then stripCwd cs ts else none
  | _ :: _, [] => none

/-- `Path.resolve()` on a root-relative path: prepend the working directory. -/
def resolvePath (cwd : AbsPath) (p : MPath) : AbsPath := cwd ++ p

/-- Fuel-bounded symlink resolution: the node a path finally denotes, following
symlinks whose targets lie below `cwd`.  Out of fuel (a link cycle) or a
target outside `cwd` that has no entry resolves to `none`. -/
def FS.resolveNode (cwd : AbsPath) : Nat → FS → MPath → Option FSNode
  | 0, _, _ => none
  | fuel + 1, fs, p =>
    match FS.get fs p with
    | some (.symlink t) =>
      match stripCwd cwd t with
      | some r => FS.resolveNode cwd fuel fs r
      | none => none
    | o => o

/-- `Path.exists()`: true iff the path resolves (through symlinks) to a node. -/
def FS.pexists (cwd : AbsPath) (fs : FS) (p : MPath) : Bool :=
  (FS.resolveNode cwd (fs.length + 1) fs p).isSome

/-- `Path.is_symlink()`: the entry itself is a symbolic link (no following). -/
def FS.isLink (fs : FS) (p : MPath) : Bool :=
  match FS.get fs p with
  | some (.symlink _) => true
  | _ => false

/-- The path resolves (through symlinks) to a directory. -/
def FS.resolveIsDir (cwd : AbsPath) (fs : FS) (p : MPath) : Bool :=
  match FS.resolveNode cwd (fs.length + 1) fs p with
  | some .dir => true
  | _ => false

/-- The parent directory of `p` exists (or `p` sits at the repository root),
so that an entry can be created at `p`. -/
def parentOkay (cwd : AbsPath) (fs : FS) (p : MPath) : Bool :=
  p.dropLast.isEmpty || FS.resolveIsDir cwd fs p.dropLast

/-- A plain write to `p` cannot hit a directory or an existing symlink. -/
def canWriteAt (fs : FS) (p : MPath) : Bool :=
  match FS.get fs p with
  | none => true
  | some (.file _) => true
  | _ => false

/-- `write_text`: create or overwrite the regular file at `p`. -/
def fsWrite (cwd : AbsPath) (fs : FS) (p : MPath) (c : String) : Option FS :=
  if parentOkay cwd fs p && canWriteAt fs p then some (FS.set fs p (.file c))
  else none

/-- `Path.symlink_to`: create a symlink at `p`; raises if `p` already has an
entry or the parent directory is missing. -/
def fsSymlink (cwd : AbsPath) (fs : FS) (p : MPath) (t : AbsPath) : Option FS :=
  if parentOkay cwd fs p && (FS.get fs p).isNone then
    some (FS.set fs p (.symlink t))
  else none

/-- `shutil.copy2 src dst` for a root-relative source: the source must resolve
to a regular file and the destination must be creatable. -/
def fsCopy (cwd : AbsPath) (fs : FS) (src dst : MPath) : Option FS :=
  match FS.resolveNode cwd (fs.length + 1) fs src with
  | some (.file c) =>
    if parentOkay cwd fs dst && canWriteAt fs dst then some (FS.set fs dst (.file c))
    else none
  | _ => none

/-- `shutil.copy2` from an absolute source path (as used after `resolve()`). -/
def fsCopyFromAbs (cwd : AbsPath) (fs : FS) (src : AbsPath) (dst : MPath) : Option FS :=
  match stripCwd cwd src with
  | some rel => fsCopy cwd fs rel dst
  | none => none

/-- All nonempty leading portions of a path, shortest first;
`mkdir(parents := True)` creates exactly these as directories. -/
def prefixesUp : MPath → List MPath
  | [] => []
  | x :: xs => [x] :: (prefixesUp xs).map (fun q => x :: q)

/-- One step of `mkdir(parents := True, exist_ok := True)`: create the
directory unless some entry is already there. -/
def mkStep (a : FS) (r : MPath) : FS :=
  if (FS.get a r).isSome then a else FS.set a r .dir

/-- `mkdir(parents := True, exist_ok := True)`. -/
def mkdirP (fs : FS) (p : MPath) : FS :=
  (prefixesUp p).foldl mkStep fs

/-! ## Program constants (from `setup-ai-tools.py`) -/

/-- `MASTER_FILE = ".ai-context.md"`. -/
def MASTER_P : MPath := [".ai-context.md"]

/-- `BACKUP_DIR = ".ai-tools-backup"`. -/
def BACKUP_DIR_S : String := ".ai-tools-backup"

/-- The backup directory as a path. -/
def BD_P : MPath := [BACKUP_DIR_S]

/-- `AIDER_CONFIG = ".aider.conf.yml"`. -/
def AIDER_P : MPath := [".aider.conf.yml"]

/-- `.gitignore`. -/
def GI_P : MPath := [".gitignore"]

/-- The five `AI_CONFIGS` target paths, in dictionary order. -/
def T1 : MPath := ["CLAUDE.md"]

def T2 : MPath := [".cursorrules"]

def T3 : MPath := [".github", "copilot-instructions.md"]

def T4 : MPath := [".codeium", "instructions.md"]

def T5 : MPath := [".continue", "context.md"]

/-- The `AI_CONFIGS` key set (descriptions only feed log messages). -/
def AI_CONFIG_PATHS : List MPath := [T1, T2, T3, T4, T5]

/-- The boilerplate template written by `create_master_config`. -/
def MASTER_TEMPLATE : String :=
  "# AI Context Configuration\n\n## Project Overview\n<!-- Add your project description here -->\n\n## Architecture\n<!-- Describe your project architecture -->\n\n## Coding Standards\n<!-- Define your coding standards and conventions -->\n\n### TypeScript/JavaScript\n- Use strict type checking\n- Prefer const over let\n- Use meaningful variable names\n- Add JSDoc comments for public APIs\n\n### React (if applicable)\n- Use functional components with hooks\n- Implement proper error boundaries\n- Use React.memo for performance optimization\n\n### Python (if applicable)\n- Follow PEP 8 style guidelines\n- Use type hints\n- Write comprehensive docstrings\n- Use virtual environments\n\n## Testing Strategy\n<!-- Describe your testing approach -->\n\n## Performance Requirements\n<!-- List performance requirements -->\n\n## Security Guidelines\n<!-- Security best practices for this project -->\n\n<!-- Tool-specific sections -->\n<!-- AI:CLAUDE -->\n<!-- Claude-specific instructions here -->\n<!-- /AI:CLAUDE -->\n\n<!-- AI:CURSOR -->\n<!-- Cursor-specific instructions here -->\n<!-- /AI:CURSOR -->\n\n<!-- AI:COPILOT -->\n<!-- GitHub Copilot-specific instructions here -->\n<!-- /AI:COPILOT -->\n"

/-- The boilerplate written by `create_aider_config`. -/
def AIDER_TEMPLATE : String :=
  "# Aider configuration\n# This file is managed by ContextHub\n# Edit .ai-context.md instead\n\n# Model settings\nmodel: gpt-4\n\n# Auto-commit settings\nauto-commits: true\ndirty-commits: true\n\n# Context settings\nread: .ai-context.md\n"

/-- The text appended to `.gitignore` by `create_backup_dir`. -/
def GITIGNORE_ENTRY : String := "\n# AI tools backup\n.ai-tools-backup/\n"

/-- The first list starts with the second list. -/
def charsLead : List Char → List Char → Bool
  | [], _ => true
  | _ :: _, [] => false
  | c :: cs, d :: ds => c == d && charsLead cs ds

/-- The second list occurs (contiguously) inside the first. -/
def charsContain (needle : List Char) : List Char → Bool
  | [] => needle.isEmpty
  | d :: rest => charsLead needle (d :: rest) || charsContain needle rest

/-- Python substring test `needle in hay`. -/
def containsStr (hay needle : String) : Bool := charsContain needle.data hay.data

/-- `path.name`: the final component. -/
def lastName (p : MPath) : String := p.getLastD ""

/-- The backup destination `BACKUP_DIR / f"{path.name}_{timestamp}"`. -/
def bkName (p : MPath) (ts : String) : MPath := [BACKUP_DIR_S, lastName p ++ "_" ++ ts]

/-! ## The script's functions -/

/-- `backup_existing_file(file_path)`.  `ts` is the strftime timestamp;
`ioFail` injects a spurious I/O error into the `try` block (any such
exception is caught and reported as `False`). -/
def backup_existing_file (cwd : AbsPath) (fs : FS) (filePath : MPath) (ts : String)
    (ioFail : Bool) : FS × Bool :=
  if FS.pexists cwd fs filePath || FS.isLink fs filePath then
    if ioFail then (fs, false)
    else if FS.isLink fs filePath then (FS.removeP fs filePath, true)
    else
      match FS.get fs filePath with
      | some (.file c) =>
        if FS.resolveIsDir cwd fs BD_P && canWriteAt fs (bkName filePath ts) then
          (FS.removeP (FS.set fs (bkName filePath ts) (.file c)) filePath, true)
        else (fs, false)
      | _ => (fs, false)
  else (fs, true)

/-- `ensure_directory(file_path)`: create the parent directory if needed. -/
def ensure_directory (cwd : AbsPath) (fs : FS) (p : MPath) : FS :=
  let parent := p.dropLast
  if parent.isEmpty || FS.pexists cwd fs parent then fs else mkdirP fs parent

/-- `create_config_link(target, link_path, description, use_symlinks)`.
`bf` injects an I/O failure into the backup step, `cf` into the
symlink/copy step (both caught by the script and reported as `False`). -/
def create_config_link (cwd : AbsPath) (fs : FS) (target : MPath) (linkPath : MPath)
    (ts : String) (use_symlinks bf cf : Bool) : FS × Bool :=
  let fs0 := ensure_directory cwd fs linkPath
  let b := backup_existing_file cwd fs0 linkPath ts bf
  if !b.2 then (b.1, false)
  else
    let target_path := resolvePath cwd target
    let res : Option FS :=
      if cf then none
      else if use_symlinks then fsSymlink cwd b.1 linkPath target_path
      else fsCopyFromAbs cwd b.1 target_path linkPath
    match res with
    | some fs2 => (fs2, true)
    | none => (b.1, false)

/-- `create_master_config()`: seed the master file if absent (`none` models an
uncaught exception from the write). -/
def create_master_config (cwd : AbsPath) (fs : FS) : Option FS :=
  if FS.pexists cwd fs MASTER_P then some fs
  else fsWrite cwd fs MASTER_P MASTER_TEMPLATE

/-- `create_aider_config()`: same create-if-absent contract. -/
def create_aider_config (cwd : AbsPath) (fs : FS) : Option FS :=
  if FS.pexists cwd fs AIDER_P then some fs
  else fsWrite cwd fs AIDER_P AIDER_TEMPLATE

/-- `create_backup_dir()`: create the backup directory and, on first creation,
append the ignore entry to an existing `.gitignore` that lacks it.
`.error` models an uncaught exception (state at the raise point). -/
def create_backup_dir (cwd : AbsPath) (fs : FS) : Except FS FS :=
  if FS.pexists cwd fs BD_P then .ok fs
  else
    match FS.get fs BD_P with
    | some _ => .error fs
    | none =>
      let fs1 := FS.set fs BD_P .dir
      if FS.pexists cwd fs1 GI_P then
        match FS.resolveNode cwd (fs1.length + 1) fs1 GI_P with
        | some (.file g) =>
          if containsStr g BACKUP_DIR_S then .ok fs1
          else .ok (FS.set fs1 GI_P (.file (g ++ GITIGNORE_ENTRY)))
        | _ => .error fs1
      else .ok fs1

/-- `verify_setup()`: count the master file and each target that is missing;
succeed iff nothing is missing (the aider check only logs). -/
def verify_setup (cwd : AbsPath) (fs : FS) : Bool :=
  let failed0 : Nat := if FS.pexists cwd fs MASTER_P then 0 else 1
  let failed := AI_CONFIG_PATHS.foldl
    (fun acc p => if FS.pexists cwd fs p then acc else acc + 1) failed0
  failed == 0

/-- The strategy selector in `main_setup` (lines 333-339): `fc` is
`--force-copy`, `w` is `platform.system() == "Windows"`, `cs` is
`check_symlink_support()`, `priv` is `is_admin()`. -/
def use_symlinks_of (fc w cs priv : Bool) : Bool :=
  if fc then false
  else if w then priv && cs
  else cs

/-- Result of one run of `main_setup`.  `raised = true` models an exception
escaping `main_setup` (caught only by `main`'s outermost handler);
`fs` is the filesystem at the end (or at the raise point). -/
structure SetupResult where
  fs : FS
  success_count : Nat
  total_count : Nat
  verify_result : Bool
  method_symlinks : Bool
  raised : Bool
  deriving DecidableEq, Repr

/-- One iteration of the `for config_file in AI_CONFIGS` loop. -/
def cclStep (cwd : AbsPath) (ts : String) (us : Bool) (f : MPath → Bool × Bool)
    (acc : FS × Nat) (p : MPath) : FS × Nat :=
  let r := create_config_link cwd acc.1 MASTER_P p ts us (f p).1 (f p).2
  (r.1, acc.2 + if r.2 then 1 else 0)

/-- `main_setup(force_copy)`.  `f` assigns to each target path the pair of
injected fault flags (backup step, link/copy step). -/
def main_setup (cwd : AbsPath) (fs : FS) (fc w cs priv : Bool) (ts : String)
    (f : MPath → Bool × Bool) : SetupResult :=
  let us := use_symlinks_of fc w cs priv
  match create_master_config cwd fs with
  | none => ⟨fs, 0, AI_CONFIG_PATHS.length, false, us, true⟩
  | some fs1 =>
    match create_backup_dir cwd fs1 with
    | .error fsE => ⟨fsE, 0, AI_CONFIG_PATHS.length, false, us, true⟩
    | .ok fs2 =>
      let acc := AI_CONFIG_PATHS.foldl (cclStep cwd ts us f) (fs2, 0)
      match create_aider_config cwd acc.1 with
      | none => ⟨acc.1, acc.2, AI_CONFIG_PATHS.length, false, us, true⟩
      | some fs4 =>
        ⟨fs4, acc.2, AI_CONFIG_PATHS.length, verify_setup cwd fs4, us, false⟩

/-- The parsed command-line flags. -/
structure Args where
  verify : Bool
  backup_only : Bool
  force_copy : Bool
  deriving DecidableEq, Repr

/-- `main()`: mode dispatch and process exit code.  The result is the final
filesystem and the exit status (1 when the outermost handler caught an
exception). -/
def main_run (cwd : AbsPath) (fs : FS) (a : Args) (w cs priv : Bool) (ts : String)
    (f : MPath → Bool × Bool) : FS × Nat :=
  if a.verify then (fs, if verify_setup cwd fs then 0 else 1)
  else if a.backup_only then
    match create_backup_dir cwd fs with
    | .error fsE => (fsE, 1)
    | .ok fs1 =>
      (AI_CONFIG_PATHS.foldl (fun acc p => (backup_existing_file cwd acc p ts (f p).1).1) fs1, 0)
  else
    let r := main_setup cwd fs a.force_copy w cs priv ts f
    (r.fs, if r.raised then 1 else 0)

/-! ## The symlink-support probe (`check_symlink_support`) -/

/-- `Path.cwd() / "symlink_test"`. -/
def PROBE_DIR : MPath := ["symlink_test"]

/-- `test_dir / "test.txt"`. -/
def PROBE_FILE : MPath := ["symlink_test", "test.txt"]

/-- `test_dir / "test_link.txt"`. -/
def PROBE_LINK : MPath := ["symlink_test", "test_link.txt"]

/-- `a` is a leading portion of `b`. -/
def isLead : MPath → MPath → Bool
  | [], _ => true
  | x :: xs, y :: ys => x == y && isLead xs ys
  | _ :: _, [] => false

/-- The directory has an entry strictly below it (`rmdir` then raises). -/
def hasChildEntry (fs : FS) (d : MPath) : Bool :=
  fs.any (fun e => decide (d.length < e.1.length) && isLead d e.1)

/-- No filesystem entry lies at or below the probe's scratch directory. -/
def probeFree (fs : FS) : Bool :=
  fs.all (fun e => !isLead PROBE_DIR e.1)

/-- `failAt = some k` injects a spurious I/O error at probe operation `k`
(1 `mkdir`, 2 `write_text`, 3 `symlink_to`, 4 `unlink` link, 5 `unlink` file,
6 `rmdir`). -/
def probeFail (failAt : Option Nat) (k : Nat) : Bool :=
  match failAt with
  | some j => j == k
  | none => false

/-- Cleanup part of the probe body (lines 96-102), starting from the computed
`result`; each removal is guarded by an `exists()` check. -/
def probe_cleanup (cwd : AbsPath) (fs : FS) (failAt : Option Nat) (result : Bool) :
    Except FS (FS × Bool) :=
  -- if test_link.exists(): test_link.unlink()
  if FS.pexists cwd fs PROBE_LINK then
    if probeFail failAt 4 then .error fs else
    let fs4 := FS.removeP fs PROBE_LINK
    -- if test_file.exists(): test_file.unlink()
    if FS.pexists cwd fs4 PROBE_FILE then
      if probeFail failAt 5 then .error fs4 else
      let fs5 := FS.removeP fs4 PROBE_FILE
      -- if test_dir.exists(): test_dir.rmdir()
      if FS.pexists cwd fs5 PROBE_DIR then
        if probeFail failAt 6 || hasChildEntry fs5 PROBE_DIR then .error fs5
        else .ok (FS.removeP fs5 PROBE_DIR, result)
      else .ok (fs5, result)
    else
      if FS.pexists cwd fs4 PROBE_DIR then
        if probeFail failAt 6 || hasChildEntry fs4 PROBE_DIR then .error fs4
        else .ok (FS.removeP fs4 PROBE_DIR, result)
      else .ok (fs4, result)
  else
    if FS.pexists cwd fs PROBE_FILE then
      if probeFail failAt 5 then .error fs else
      let fs5 := FS.removeP fs PROBE_FILE
      if FS.pexists cwd fs5 PROBE_DIR then
        if probeFail failAt 6 || hasChildEntry fs5 PROBE_DIR then .error fs5
        else .ok (FS.removeP fs5 PROBE_DIR, result)
      else .ok (fs5, result)
    else
      if FS.pexists cwd fs PROBE_DIR then
        if probeFail failAt 6 || hasChildEntry fs PROBE_DIR then .error fs
        else .ok (FS.removeP fs PROBE_DIR, result)
      else .ok (fs, result)

/-- The probe body after the `mkdir` step: write the test file, create the
test link, compute the result, and clean up. -/
def probe_body_rest (cwd : AbsPath) (fs : FS) (failAt : Option Nat) : Except FS (FS × Bool) :=
  -- test_file.write_text("test")
  if probeFail failAt 2 then .error fs else
  match fsWrite cwd fs PROBE_FILE "test" with
  | none => .error fs
  | some fs2 =>
    -- test_link.symlink_to(test_file)
    if probeFail failAt 3 then .error fs2 else
    match fsSymlink cwd fs2 PROBE_LINK (resolvePath cwd PROBE_FILE) with
    | none => .error fs2
    | some fs3 =>
      -- result = test_link.exists() and test_link.is_symlink()
      probe_cleanup cwd fs3 failAt
        (FS.pexists cwd fs3 PROBE_LINK && FS.isLink fs3 PROBE_LINK)

/-- The `try` block of `check_symlink_support` (lines 85-104): `.error`
carries the filesystem at the raise point. -/
def probe_body (cwd : AbsPath) (fs : FS) (failAt : Option Nat) : Except FS (FS × Bool) :=
  -- test_dir.mkdir(exist_ok=True)
  if probeFail failAt 1 then .error fs else
  match FS.get fs PROBE_DIR with
  | some .dir => probe_body_rest cwd fs failAt
  | none => probe_body_rest cwd (FS.set fs PROBE_DIR .dir) failAt
  | some _ => .error fs

/-- `check_symlink_support()`: any exception in the body is caught and the
probe degrades to `False` (lines 105-106). -/
def check_symlink_support (cwd : AbsPath) (fs : FS) (failAt : Option Nat) : FS × Bool :=
  match probe_body cwd fs failAt with
  | .ok r => r
  | .error fsE => (fsE, false)

/-- The master-file content after `create_master_config`: the pre-existing
content when the master file already is a regular file, the boilerplate
template otherwise. -/
def mAfter (fs : FS) : String :=
  match FS.get fs MASTER_P with
  | some (.file c) => c
  | _ => MASTER_TEMPLATE

/-- The parent directories that `ensure_directory` may create for the five
targets. -/
def PARENT_DIRS : List MPath := [[".github"], [".codeium"], [".continue"]]

/-! ## Concrete fixtures used to exercise the model -/

/-- A concrete working directory. -/
def CWD0 : AbsPath := ["home", "user", "repo"]

/-- The fault oracle of an error-free run. -/
def noFaults : MPath → Bool × Bool := fun _ => (false, false)

/-- A concrete timestamp string. -/
def TS0 : String := "20240101_120000"

/-- A concrete pre-setup filesystem: a gitignore, a user file, and a
pre-existing regular file at the `CLAUDE.md` target. -/
def FS0 : FS :=
  [(GI_P, .file "node_modules/\n"), (["README.md"], .file "readme"),
   (T1, .file "old claude settings")]

/-- A concrete filesystem in which a full setup already succeeded with the
copy strategy and every target pre-exists as a regular file. -/
def FS1 : FS :=
  [(MASTER_P, .file "master text"), (BD_P, .dir),
   ([".github"], .dir), ([".codeium"], .dir), ([".continue"], .dir),
   (T1, .file "c1"), (T2, .file "c2"), (T3, .file "c3"),
   (T4, .file "c4"), (T5, .file "c5")]

/-! ## Basic lemmas about the filesystem model -/

theorem FS.get_removeP_self (fs : FS) (p : MPath) : FS.get (FS.removeP fs p) p = none := by
  induction fs with
  | nil => rfl
  | cons e rest ih =>
    by_cases h : e.1 = p <;> simp [FS.removeP, FS.get, h, ih]

theorem FS.get_removeP_ne (fs : FS) (p q : MPath) (h : q ≠ p) :
    FS.get (FS.removeP fs p) q = FS.get fs q := by
  induction fs with
  | nil => rfl
  | cons e rest ih =>
    simp only [FS.removeP, FS.get]
    by_cases he : e.1 = p
    · have hne : ¬e.1 = q := by rw [he]; exact fun hc => h hc.symm
      simp [he, hne, ih, Ne.symm h]
    · by_cases hq : e.1 = q
      · simp [he, hq, h, FS.get]
      · simp [he, hq, ih, FS.get]

theorem FS.get_set_self (fs : FS) (p : MPath) (n : FSNode) :
    FS.get (FS.set fs p n) p = some n := by
  simp [FS.set, FS.get]

theorem FS.get_set_ne (fs : FS) (p q : MPath) (n : FSNode) (h : q ≠ p) :
    FS.get (FS.set fs p n) q = FS.get fs q := by
  have : p ≠ q := fun hc => h hc.symm
  simp [FS.set, FS.get, this, FS.get_removeP_ne fs p q h]

theorem FS.removeP_of_get_none (fs : FS) (p : MPath) (h : FS.get fs p = none) :
    FS.removeP fs p = fs := by
  induction fs with
  | nil => rfl
  | cons e rest ih =>
    by_cases he : e.1 = p
    · simp [FS.get, he] at h
    · simp [FS.get, he] at h
      simp [FS.removeP, he, ih h]

theorem FS.length_pos_of_get_some (fs : FS) (p : MPath) (n : FSNode)
    (h : FS.get fs p = some n) : 0 < fs.length := by
  cases fs with
  | nil => simp [FS.get] at h
  | cons e rest => simp

theorem stripCwd_append (cwd : AbsPath) (r : MPath) : stripCwd cwd (cwd ++ r) = some r := by
  induction cwd with
  | nil => rfl
  | cons c cs ih => simp [stripCwd, ih]

theorem FS.resolveNode_succ (cwd : AbsPath) (n : Nat) (fs : FS) (p : MPath) :
    FS.resolveNode cwd (n + 1) fs p =
      match FS.get fs p with
      | some (.symlink t) =>
        match stripCwd cwd t with
        | some r => FS.resolveNode cwd n fs r
        | none => none
      | o => o := rfl

theorem FS.pexists_of_get_file (cwd : AbsPath) (fs : FS) (p : MPath) (c : String)
    (h : FS.get fs p = some (.file c)) : FS.pexists cwd fs p = true := by
  simp [FS.pexists, FS.resolveNode_succ, h]

theorem FS.pexists_of_get_dir (cwd : AbsPath) (fs : FS) (p : MPath)
    (h : FS.get fs p = some .dir) : FS.pexists cwd fs p = true := by
  simp [FS.pexists, FS.resolveNode_succ, h]

theorem FS.pexists_of_get_none (cwd : AbsPath) (fs : FS) (p : MPath)
    (h : FS.get fs p = none) : FS.pexists cwd fs p = false := by
  simp [FS.pexists, FS.resolveNode_succ, h]

theorem FS.pexists_of_link_to_file (cwd : AbsPath) (fs : FS) (p q : MPath) (c : String)
    (hp : FS.get fs p = some (.symlink (cwd ++ q)))
    (hq : FS.get fs q = some (.file c)) : FS.pexists cwd fs p = true := by
  have hpos : 0 < fs.length := FS.length_pos_of_get_some fs p _ hp
  obtain ⟨k, hk⟩ : ∃ k, fs.length = k + 1 :=
    ⟨fs.length - 1, by omega⟩
  simp [FS.pexists, hk, FS.resolveNode_succ, hp, stripCwd_append, hq]

theorem FS.isLink_of_get_link (fs : FS) (p : MPath) (t : AbsPath)
    (h : FS.get fs p = some (.symlink t)) : FS.isLink fs p = true := by
  simp [FS.isLink, h]

theorem FS.isLink_of_get_file (fs : FS) (p : MPath) (c : String)
    (h : FS.get fs p = some (.file c)) : FS.isLink fs p = false := by
  simp [FS.isLink, h]

theorem FS.isLink_of_get_none (fs : FS) (p : MPath)
    (h : FS.get fs p = none) : FS.isLink fs p = false := by
  simp [FS.isLink, h]

theorem FS.resolveIsDir_of_get_dir (cwd : AbsPath) (fs : FS) (p : MPath)
    (h : FS.get fs p = some .dir) : FS.resolveIsDir cwd fs p = true := by
  simp [FS.resolveIsDir, FS.resolveNode_succ, h]

theorem mkdirGo_frame (l : List MPath) (fs : FS) (q : MPath)
    (h : ∀ r ∈ l, q ≠ r) : FS.get (l.foldl mkStep fs) q = FS.get fs q := by
  induction l generalizing fs with
  | nil => rfl
  | cons r rest ih =>
    have hq : q ≠ r := h r (by simp)
    have hrest : ∀ r' ∈ rest, q ≠ r' := fun r' hr' => h r' (by simp [hr'])
    rw [List.foldl_cons, ih _ hrest]
    by_cases hs : (FS.get fs r).isSome <;> simp [mkStep, hs, FS.get_set_ne fs r q .dir hq]

theorem mkdirGo_unch_or_dir (l : List MPath) (fs : FS) (q : MPath) :
    FS.get (l.foldl mkStep fs) q = FS.get fs q ∨
      FS.get (l.foldl mkStep fs) q = some .dir := by
  induction l generalizing fs with
  | nil => exact Or.inl rfl
  | cons r rest ih =>
    rw [List.foldl_cons]
    rcases ih (mkStep fs r) with h | h
    · rw [h]
      by_cases hs : (FS.get fs r).isSome
      · simp [mkStep, hs]
      · by_cases hq : q = r
        · subst hq; simp [mkStep, hs, FS.get_set_self]
        · simp [mkStep, hs, FS.get_set_ne fs r q .dir hq]
    · exact Or.inr h

theorem mkdirP_frame (fs : FS) (p q : MPath) (h : ∀ r ∈ prefixesUp p, q ≠ r) :
    FS.get (mkdirP fs p) q = FS.get fs q :=
  mkdirGo_frame (prefixesUp p) fs q h

theorem mkdirP_unch_or_dir (fs : FS) (p q : MPath) :
    FS.get (mkdirP fs p) q = FS.get fs q ∨ FS.get (mkdirP fs p) q = some .dir :=
  mkdirGo_unch_or_dir (prefixesUp p) fs q

/-- A fault oracle that fails the backup step of the second target and the
link/copy step of the third. -/
def faultAt23 : MPath → Bool × Bool := fun p => (decide (p = T2), decide (p = T3))

/-! ## Small path facts -/

theorem ne_of_head_ne {a b : String} {l1 l2 : List String} (h : a ≠ b) :
    a :: l1 ≠ b :: l2 := by
  intro he
  injection he with h1 _
  exact h h1

theorem ne_of_length_ne {l1 l2 : List String} (h : l1.length ≠ l2.length) : l1 ≠ l2 := by
  intro he
  exact h (he ▸ rfl)

/-! ## Claim C1: the strategy selector -/

/-- C1.  Strategy selection is a deterministic function of exactly the four
inputs force-copy, Windows-family, symlink capability, and privilege: the
selected method is SYMLINK (`true`) iff the override is off and, on Windows,
both privileged and symlink-capable, or, off Windows, symlink-capable; in all
other cases it is COPY.  The method recorded by `main_setup` is exactly this
function of the four flags, whatever the filesystem, timestamp and fault
oracle are. -/
theorem strategy_selector_spec :
    ∀ (fc w cs priv : Bool) (cwd : AbsPath) (fs : FS) (ts : String)
      (f : MPath → Bool × Bool),
      (use_symlinks_of fc w cs priv = true ↔
        (fc = false ∧ ((w = true ∧ priv = true ∧ cs = true) ∨ (w = false ∧ cs = true)))) ∧
      (main_setup cwd fs fc w cs priv ts f).method_symlinks = use_symlinks_of fc w cs priv := by
  intro fc w cs priv cwd fs ts f
  constructor
  · cases fc <;> cases w <;> cases cs <;> cases priv <;> simp [use_symlinks_of]
  · simp only [main_setup]
    split
    · rfl
    · split
      · rfl
      · split
        · rfl
        · rfl

/-! ## Claim C3: the verifier and `--verify` exit code -/

theorem verify_setup_iff (cwd : AbsPath) (fs : FS) :
    verify_setup cwd fs = true ↔
      (FS.pexists cwd fs MASTER_P = true ∧ FS.pexists cwd fs T1 = true ∧
       FS.pexists cwd fs T2 = true ∧ FS.pexists cwd fs T3 = true ∧
       FS.pexists cwd fs T4 = true ∧ FS.pexists cwd fs T5 = true) := by
  simp only [verify_setup, AI_CONFIG_PATHS, List.foldl]
  cases h0 : FS.pexists cwd fs MASTER_P <;>
    cases h1 : FS.pexists cwd fs T1 <;>
    cases h2 : FS.pexists cwd fs T2 <;>
    cases h3 : FS.pexists cwd fs T3 <;>
    cases h4 : FS.pexists cwd fs T4 <;>
    cases h5 : FS.pexists cwd fs T5 <;>
    simp

/-- C3.  The verifier returns `true` iff the master file exists and all five
target paths exist — only existence matters, so whether each target is a
symlink or a plain file cannot change the result, and the aider-config check
contributes nothing to the boolean (it only logs a warning).  In `--verify`
mode the exit code is 0 iff this boolean is `true`, else 1. -/
theorem verify_setup_spec :
    ∀ (cwd : AbsPath) (fs : FS),
      (verify_setup cwd fs = true ↔
        (FS.pexists cwd fs MASTER_P = true ∧ FS.pexists cwd fs T1 = true ∧
         FS.pexists cwd fs T2 = true ∧ FS.pexists cwd fs T3 = true ∧
         FS.pexists cwd fs T4 = true ∧ FS.pexists cwd fs T5 = true)) ∧
      (∀ (b fc w cs priv : Bool) (ts : String) (f : MPath → Bool × Bool),
        main_run cwd fs ⟨true, b, fc⟩ w cs priv ts f =
          (fs, if verify_setup cwd fs then 0 else 1)) := by
  intro cwd fs
  exact ⟨verify_setup_iff cwd fs, fun b fc w cs priv ts f => rfl⟩

/-! ## Claim C10: CLI mode precedence -/

/-- C10.  The three CLI modes are resolved by fixed precedence: `--verify`
wins over everything, then `--backup-only`, else full setup; and
`--force-copy` has no effect in the `--verify` and `--backup-only` branches. -/
theorem cli_dispatch_spec :
    ∀ (cwd : AbsPath) (fs : FS) (v b fc w cs priv : Bool) (ts : String)
      (f : MPath → Bool × Bool),
      (v = true → main_run cwd fs ⟨v, b, fc⟩ w cs priv ts f =
        (fs, if verify_setup cwd fs then 0 else 1)) ∧
      (v = false → b = true → main_run cwd fs ⟨v, b, fc⟩ w cs priv ts f =
        (match create_backup_dir cwd fs with
         | .error fsE => (fsE, 1)
         | .ok fs1 =>
           (AI_CONFIG_PATHS.foldl
             (fun acc p => (backup_existing_file cwd acc p ts (f p).1).1) fs1, 0))) ∧
      (v = false → b = false → main_run cwd fs ⟨v, b, fc⟩ w cs priv ts f =
        ((main_setup cwd fs fc w cs priv ts f).fs,
         if (main_setup cwd fs fc w cs priv ts f).raised then 1 else 0)) ∧
      (main_run cwd fs ⟨true, b, fc⟩ w cs priv ts f =
        main_run cwd fs ⟨true, b, false⟩ w cs priv ts f) ∧
      (main_run cwd fs ⟨v, true, fc⟩ w cs priv ts f =
        main_run cwd fs ⟨v, true, false⟩ w cs priv ts f) := by
  intro cwd fs v b fc w cs priv ts f
  refine ⟨fun hv => ?_, fun hv hb => ?_, fun hv hb => ?_, ?_, ?_⟩
  · subst hv; rfl
  · subst hv; subst hb; rfl
  · subst hv; subst hb; rfl
  · rfl
  · cases v <;> rfl

/-- C10 witness: the three branches at concrete inputs. -/
theorem cli_dispatch_spec_witness :
    main_run CWD0 FS0 ⟨true, true, true⟩ false true false TS0 noFaults =
      (FS0, if verify_setup CWD0 FS0 then 0 else 1) ∧
    main_run CWD0 FS0 ⟨false, true, true⟩ false true false TS0 noFaults =
      (match create_backup_dir CWD0 FS0 with
       | .error fsE => (fsE, 1)
       | .ok fs1 =>
         (AI_CONFIG_PATHS.foldl
           (fun acc p => (backup_existing_file CWD0 acc p TS0 (noFaults p).1).1) fs1, 0)) ∧
    main_run CWD0 FS0 ⟨false, false, true⟩ false true false TS0 noFaults =
      ((main_setup CWD0 FS0 true false true false TS0 noFaults).fs,
       if (main_setup CWD0 FS0 true false true false TS0 noFaults).raised then 1 else 0) := by
  refine ⟨?_, ?_, ?_⟩
  · exact (cli_dispatch_spec CWD0 FS0 true true true false true false TS0 noFaults).1 rfl
  · exact (cli_dispatch_spec CWD0 FS0 false true true false true false TS0 noFaults).2.1 rfl rfl
  · exact (cli_dispatch_spec CWD0 FS0 false false true false true false TS0 noFaults).2.2.1 rfl rfl

/-! ## Claim C4: the single-file backup operation -/

/-- C4.  `backup_existing_file`: a symlink is simply removed (no backup file
is written); a regular file is first copied into the backup directory under
`name_timestamp` and then removed (when the copy destination is usable —
otherwise the failure is reported as `false`, per the last conjunct); a
nonexistent path is a successful no-op whatever the fault flag; and any I/O
failure inside the `try` block is caught and reported as the boolean `false`
(the function is total — it never raises). -/
theorem backup_existing_file_spec :
    ∀ (cwd : AbsPath) (fs : FS) (p : MPath) (ts : String),
      (FS.isLink fs p = true →
        backup_existing_file cwd fs p ts false = (FS.removeP fs p, true)) ∧
      (∀ c, FS.get fs p = some (.file c) →
        FS.resolveIsDir cwd fs BD_P = true →
        canWriteAt fs (bkName p ts) = true →
        backup_existing_file cwd fs p ts false =
          (FS.removeP (FS.set fs (bkName p ts) (.file c)) p, true)) ∧
      (FS.pexists cwd fs p = false → FS.isLink fs p = false →
        ∀ io, backup_existing_file cwd fs p ts io = (fs, true)) ∧
      ((FS.pexists cwd fs p || FS.isLink fs p) = true →
        backup_existing_file cwd fs p ts true = (fs, false)) := by
  intro cwd fs p ts
  refine ⟨fun hl => ?_, fun c hc hd hw => ?_, fun he hl io => ?_, fun h => ?_⟩
  · simp [backup_existing_file, hl]
  · have hl : FS.isLink fs p = false := FS.isLink_of_get_file fs p c hc
    have hex : FS.pexists cwd fs p = true := FS.pexists_of_get_file cwd fs p c hc
    simp [backup_existing_file, hl, hex, hc, hd, hw]
  · simp [backup_existing_file, he, hl]
  · simp [backup_existing_file, h]

/-- C4 witness: the four behaviours at concrete inputs: removing a symlink,
backing up then removing a regular file, the nonexistent no-op, and an
injected I/O failure reported as `false`. -/
theorem backup_existing_file_spec_witness :
    backup_existing_file CWD0 [(T1, .symlink (CWD0 ++ MASTER_P))] T1 TS0 false =
      ([], true) ∧
    backup_existing_file CWD0 [(T1, .file "old"), (BD_P, .dir)] T1 TS0 false =
      ([(bkName T1 TS0, .file "old"), (BD_P, .dir)], true) ∧
    backup_existing_file CWD0 [] T2 TS0 true = ([], true) ∧
    backup_existing_file CWD0 [(T1, .file "old"), (BD_P, .dir)] T1 TS0 true =
      ([(T1, .file "old"), (BD_P, .dir)], false) := by
  refine ⟨?_, ?_, ?_, ?_⟩
  · exact (backup_existing_file_spec CWD0 [(T1, .symlink (CWD0 ++ MASTER_P))] T1 TS0).1
      (by decide)
  · exact (backup_existing_file_spec CWD0 [(T1, .file "old"), (BD_P, .dir)] T1 TS0).2.1
      "old" (by decide) (by decide) (by decide)
  · exact (backup_existing_file_spec CWD0 [] T2 TS0).2.2.1 (by decide) (by decide) true
  · exact (backup_existing_file_spec CWD0 [(T1, .file "old"), (BD_P, .dir)] T1 TS0).2.2.2
      (by decide)

/-! ## Claim C9: broken symlinks in the backup operation -/

/-- C9.  A broken symlink (`exists()` is false but `is_symlink()` is true) is
still handled by the symlink branch of `backup_existing_file`: the link is
removed, no backup file is created (every other path is untouched), and the
call returns `true`; it is not treated as the nonexistent-path no-op — the
entry at `p` is actually gone afterwards. -/
theorem backup_broken_symlink_spec :
    ∀ (cwd : AbsPath) (fs : FS) (p : MPath) (t : AbsPath) (ts : String),
      FS.get fs p = some (.symlink t) →
      FS.pexists cwd fs p = false →
      backup_existing_file cwd fs p ts false = (FS.removeP fs p, true) ∧
      FS.get (FS.removeP fs p) p = none ∧
      (∀ q, q ≠ p → FS.get (FS.removeP fs p) q = FS.get fs q) := by
  intro cwd fs p t ts hg _he
  have hl : FS.isLink fs p = true := FS.isLink_of_get_link fs p t hg
  exact ⟨by simp [backup_existing_file, hl], FS.get_removeP_self fs p,
    fun q hq => FS.get_removeP_ne fs p q hq⟩

/-- C9 witness: a symlink whose referent does not exist is removed, no backup
appears, and the call returns `true`. -/
theorem backup_broken_symlink_spec_witness :
    backup_existing_file CWD0 [(T1, .symlink (CWD0 ++ ["gone.md"])), (BD_P, .dir)] T1 TS0 false =
      ([(BD_P, .dir)], true) ∧
    FS.get ([(BD_P, FSNode.dir)] : FS) T1 = none := by
  have h := backup_broken_symlink_spec CWD0
    [(T1, .symlink (CWD0 ++ ["gone.md"])), (BD_P, .dir)] T1 (CWD0 ++ ["gone.md"]) TS0
    (by decide) (by decide)
  exact ⟨h.1, by decide⟩

/-! ## Claim C5: the symlink-support probe -/

theorem FS.removeP_set (fs : FS) (p : MPath) (n : FSNode) (h : FS.get fs p = none) :
    FS.removeP (FS.set fs p n) p = fs := by
  simp [FS.set, FS.removeP, FS.removeP_of_get_none fs p h]

theorem get_none_of_probeFree (fs : FS) (p : MPath) (h : probeFree fs = true)
    (hp : isLead PROBE_DIR p = true) : FS.get fs p = none := by
  induction fs with
  | nil => rfl
  | cons e rest ih =>
    rw [probeFree, List.all_cons, Bool.and_eq_true] at h
    have he : e.1 ≠ p := by
      intro hc
      have h1 := h.1
      rw [hc, hp] at h1
      exact absurd h1 (by decide)
    rw [FS.get, if_neg he]
    exact ih h.2

theorem probe_no_children (fs : FS) (h : probeFree fs = true) :
    hasChildEntry ((PROBE_DIR, FSNode.dir) :: fs) PROBE_DIR = false := by
  rw [probeFree, List.all_eq_true] at h
  rw [hasChildEntry, List.any_eq_false]
  intro e he
  rcases List.mem_cons.1 he with heq | hmem
  · subst heq; decide
  · have h1 := h e hmem
    simp only [Bool.not_eq_true'] at h1
    simp [h1]

theorem probe_clean_run (cwd : AbsPath) (fs : FS) (h : probeFree fs = true) :
    check_symlink_support cwd fs none = (fs, true) := by
  have hD : FS.get fs PROBE_DIR = none := get_none_of_probeFree fs PROBE_DIR h (by decide)
  have hF : FS.get fs PROBE_FILE = none := get_none_of_probeFree fs PROBE_FILE h (by decide)
  have hL : FS.get fs PROBE_LINK = none := get_none_of_probeFree fs PROBE_LINK h (by decide)
  have hFD : PROBE_FILE ≠ PROBE_DIR := by decide
  have hLD : PROBE_LINK ≠ PROBE_DIR := by decide
  have hLF : PROBE_LINK ≠ PROBE_FILE := by decide
  have hDF : PROBE_DIR ≠ PROBE_FILE := by decide
  have hFL : PROBE_FILE ≠ PROBE_LINK := by decide
  set fs1 := FS.set fs PROBE_DIR .dir with hfs1
  have hf1D : FS.get fs1 PROBE_DIR = some .dir := by
    rw [hfs1]; exact FS.get_set_self fs PROBE_DIR .dir
  have hf1F : FS.get fs1 PROBE_FILE = none := by
    rw [hfs1, FS.get_set_ne fs PROBE_DIR PROBE_FILE .dir hFD]; exact hF
  have hf1L : FS.get fs1 PROBE_LINK = none := by
    rw [hfs1, FS.get_set_ne fs PROBE_DIR PROBE_LINK .dir hLD]; exact hL
  set fs2 := FS.set fs1 PROBE_FILE (.file "test") with hfs2
  have hf2D : FS.get fs2 PROBE_DIR = some .dir := by
    rw [hfs2, FS.get_set_ne fs1 PROBE_FILE PROBE_DIR _ hDF]; exact hf1D
  have hf2F : FS.get fs2 PROBE_FILE = some (.file "test") := by
    rw [hfs2]; exact FS.get_set_self fs1 PROBE_FILE _
  have hf2L : FS.get fs2 PROBE_LINK = none := by
    rw [hfs2, FS.get_set_ne fs1 PROBE_FILE PROBE_LINK _ hLF]; exact hf1L
  set fs3 := FS.set fs2 PROBE_LINK (.symlink (cwd ++ PROBE_FILE)) with hfs3
  have hf3L : FS.get fs3 PROBE_LINK = some (.symlink (cwd ++ PROBE_FILE)) := by
    rw [hfs3]; exact FS.get_set_self fs2 PROBE_LINK _
  have hf3F : FS.get fs3 PROBE_FILE = some (.file "test") := by
    rw [hfs3, FS.get_set_ne fs2 PROBE_LINK PROBE_FILE _ hFL]; exact hf2F
  have hw : fsWrite cwd fs1 PROBE_FILE "test" = some fs2 := by
    have hpd : PROBE_FILE.dropLast = PROBE_DIR := by decide
    have hc1 : parentOkay cwd fs1 PROBE_FILE = true := by
      rw [parentOkay, hpd]
      have hie : PROBE_DIR.isEmpty = false := by decide
      simp [FS.resolveIsDir, FS.resolveNode_succ, hf1D, hie]
    have hc2 : canWriteAt fs1 PROBE_FILE = true := by simp [canWriteAt, hf1F]
    rw [fsWrite, hc1, hc2]
    simp [hfs2]
  have hs : fsSymlink cwd fs2 PROBE_LINK (resolvePath cwd PROBE_FILE) = some fs3 := by
    have hpd : PROBE_LINK.dropLast = PROBE_DIR := by decide
    have hc1 : parentOkay cwd fs2 PROBE_LINK = true := by
      rw [parentOkay, hpd]
      have hie : PROBE_DIR.isEmpty = false := by decide
      simp [FS.resolveIsDir, FS.resolveNode_succ, hf2D, hie]
    rw [fsSymlink, hc1, hf2L]
    simp [hfs3, resolvePath]
  have hres : FS.pexists cwd fs3 PROBE_LINK = true :=
    FS.pexists_of_link_to_file cwd fs3 PROBE_LINK PROBE_FILE "test" hf3L hf3F
  have hresl : FS.isLink fs3 PROBE_LINK = true :=
    FS.isLink_of_get_link fs3 PROBE_LINK _ hf3L
  have hrm3 : FS.removeP fs3 PROBE_LINK = fs2 := by
    rw [hfs3]; exact FS.removeP_set fs2 PROBE_LINK _ hf2L
  have hrm2 : FS.removeP fs2 PROBE_FILE = fs1 := by
    rw [hfs2]; exact FS.removeP_set fs1 PROBE_FILE _ hf1F
  have hrm1 : FS.removeP fs1 PROBE_DIR = fs := by
    rw [hfs1]; exact FS.removeP_set fs PROBE_DIR _ hD
  have hex2F : FS.pexists cwd fs2 PROBE_FILE = true :=
    FS.pexists_of_get_file cwd fs2 PROBE_FILE _ hf2F
  have hex1D : FS.pexists cwd fs1 PROBE_DIR = true :=
    FS.pexists_of_get_dir cwd fs1 PROBE_DIR hf1D
  have hnc : hasChildEntry fs1 PROBE_DIR = false := by
    rw [hfs1, FS.set, FS.removeP_of_get_none fs PROBE_DIR hD]
    exact probe_no_children fs h
  have hclean : probe_cleanup cwd fs3 none true = .ok (fs, true) := by
    rw [probe_cleanup, hres]
    simp [probeFail, hrm3, hex2F, hrm2, hex1D, hnc, hrm1]
  simp [check_symlink_support, probe_body, probe_body_rest, probeFail, hD, ← hfs1,
    hw, hs, hres, hresl, hclean]

/-- C5 counterexample.  With a spurious I/O error at the `symlink_to` step
(the typical probe failure on a symlink-incapable system), the probe returns
`false` — a probe failure — but the scratch directory and the temporary file
it created are left behind: the cleanup code sits inside the `try` block
after the failing operation, so it is never reached.  This refutes "it always
attempts cleanup of its probe artifacts … regardless of whether the probe
succeeded or failed". -/
theorem probe_cleanup_counterexample :
    check_symlink_support CWD0 [] (some 3) =
      ([(PROBE_FILE, .file "test"), (PROBE_DIR, .dir)], false) ∧
    FS.get (check_symlink_support CWD0 [] (some 3)).1 PROBE_DIR = some .dir ∧
    FS.get (check_symlink_support CWD0 [] (some 3)).1 PROBE_FILE = some (.file "test") ∧
    (check_symlink_support CWD0 [] (some 3)).2 = false := by
  refine ⟨by decide, by decide, by decide, by decide⟩

/-- C5 amended.  The probe never raises: every failure of a probe operation is
caught and degrades to the boolean `false`.  Cleanup of the probe artifacts is
attempted whenever the probe body completes without an exception — regardless
of the boolean outcome — and on a clean fault-free filesystem the probe
removes everything it created (restoring the filesystem exactly) and returns
`true`; but when an operation raises mid-probe, the handler returns `false`
immediately and the artifacts created before the exception are left behind. -/
theorem probe_no_raise_cleanup :
    ∀ (cwd : AbsPath) (fs : FS) (failAt : Option Nat),
      (∀ fsE, probe_body cwd fs failAt = .error fsE →
        check_symlink_support cwd fs failAt = (fsE, false)) ∧
      (probeFree fs = true → failAt = none →
        check_symlink_support cwd fs failAt = (fs, true)) := by
  intro cwd fs failAt
  constructor
  · intro fsE hE
    rw [check_symlink_support, hE]
  · intro hfree hnone
    subst hnone
    exact probe_clean_run cwd fs hfree

/-- C5 witness: the error path at the counterexample input and the clean
no-fault run on the empty filesystem. -/
theorem probe_no_raise_cleanup_witness :
    check_symlink_support CWD0 [] (some 3) =
      ([(PROBE_FILE, .file "test"), (PROBE_DIR, .dir)], false) ∧
    check_symlink_support CWD0 [] none = ([], true) := by
  constructor
  · exact (probe_no_raise_cleanup CWD0 [] (some 3)).1
      [(PROBE_FILE, .file "test"), (PROBE_DIR, .dir)] rfl
  · exact (probe_no_raise_cleanup CWD0 [] none).2 (by decide) rfl

/-! ## Frame lemmas for the backup operation and `create_backup_dir` -/

theorem ne_bk_of_short (x : String) (p : MPath) (ts : String) : [x] ≠ bkName p ts := by
  intro h
  have h2 := congrArg List.length h
  simp [bkName] at h2

theorem ne_bk_of_head {a : String} (l : List String) (p : MPath) (ts : String)
    (h : a ≠ BACKUP_DIR_S) : (a :: l) ≠ bkName p ts := by
  rw [bkName]
  exact ne_of_head_ne h

theorem backup_frame (cwd : AbsPath) (fs : FS) (p : MPath) (ts : String) (io : Bool)
    (q : MPath) (h1 : q ≠ p) (h2 : q ≠ bkName p ts) :
    FS.get (backup_existing_file cwd fs p ts io).1 q = FS.get fs q := by
  rw [backup_existing_file]
  split
  · split
    · rfl
    · split
      · exact FS.get_removeP_ne fs p q h1
      · split
        · split
          · rw [FS.get_removeP_ne _ p q h1, FS.get_set_ne fs (bkName p ts) q _ h2]
          · rfl
        · rfl
  · rfl

theorem backup_self (cwd : AbsPath) (fs : FS) (p : MPath) (ts : String) (io : Bool) :
    FS.get (backup_existing_file cwd fs p ts io).1 p = none ∨
      (backup_existing_file cwd fs p ts io).1 = fs := by
  rw [backup_existing_file]
  split
  · split
    · exact Or.inr rfl
    · split
      · exact Or.inl (FS.get_removeP_self fs p)
      · split
        · split
          · exact Or.inl (FS.get_removeP_self _ p)
          · exact Or.inr rfl
        · exact Or.inr rfl
  · exact Or.inr rfl

theorem backup_unch_or_file (cwd : AbsPath) (fs : FS) (p : MPath) (ts : String) (io : Bool)
    (q : MPath) (h1 : q ≠ p) :
    FS.get (backup_existing_file cwd fs p ts io).1 q = FS.get fs q ∨
      (∃ c, FS.get (backup_existing_file cwd fs p ts io).1 q = some (.file c)) := by
  by_cases h2 : q = bkName p ts
  · subst h2
    rw [backup_existing_file]
    split
    · split
      · exact Or.inl rfl
      · split
        · exact Or.inl (FS.get_removeP_ne fs p _ h1)
        · split
          · rename_i c heq
            split
            · exact Or.inr ⟨c, by rw [FS.get_removeP_ne _ p _ h1, FS.get_set_self]⟩
            · exact Or.inl rfl
          · exact Or.inl rfl
    · exact Or.inl rfl
  · exact Or.inl (backup_frame cwd fs p ts io q h1 h2)

theorem cbd_skip (cwd : AbsPath) (fs : FS) (h : FS.get fs BD_P = some .dir) :
    create_backup_dir cwd fs = .ok fs := by
  rw [create_backup_dir, FS.pexists_of_get_dir cwd fs BD_P h]
  rfl

theorem cbd_ok_spec (cwd : AbsPath) (fs fs' : FS) (h : create_backup_dir cwd fs = .ok fs') :
    (∀ q, q ≠ BD_P → q ≠ GI_P → FS.get fs' q = FS.get fs q) ∧
    ((FS.get fs BD_P = none ∨ FS.get fs BD_P = some .dir) → FS.get fs' BD_P = some .dir) ∧
    (∀ g, FS.get fs GI_P = some (.file g) →
      (FS.get fs' GI_P = some (.file g) ∨
       FS.get fs' GI_P = some (.file (g ++ GITIGNORE_ENTRY)))) ∧
    (FS.get fs GI_P = none → FS.get fs' GI_P = none) := by
  have hGB : GI_P ≠ BD_P := by decide
  simp only [create_backup_dir] at h
  split at h
  case isTrue hex =>
    cases h
    refine ⟨fun q _ _ => rfl, ?_, fun g hg => Or.inl hg, fun hg => hg⟩
    intro hb
    rcases hb with hb | hb
    · rw [FS.pexists_of_get_none cwd fs BD_P hb] at hex
      exact absurd hex (by simp)
    · exact hb
  case isFalse hex =>
    split at h
    · exact Except.noConfusion h
    case _ hbd =>
      split at h
      case isTrue hgi =>
        split at h
        case _ g' hrn =>
          split at h
          · cases h
            refine ⟨fun q hq1 hq2 => FS.get_set_ne fs BD_P q .dir hq1, ?_, ?_, ?_⟩
            · intro _; exact FS.get_set_self fs BD_P .dir
            · intro g hg
              exact Or.inl (by rw [FS.get_set_ne fs BD_P GI_P .dir hGB]; exact hg)
            · intro hg
              rw [FS.get_set_ne fs BD_P GI_P .dir hGB]; exact hg
          · cases h
            have hfr : ∀ q, q ≠ BD_P → q ≠ GI_P →
                FS.get (FS.set (FS.set fs BD_P .dir) GI_P
                  (.file (g' ++ GITIGNORE_ENTRY))) q = FS.get fs q := by
              intro q hq1 hq2
              rw [FS.get_set_ne _ GI_P q _ hq2, FS.get_set_ne fs BD_P q _ hq1]
            refine ⟨hfr, ?_, ?_, ?_⟩
            · intro _
              rw [FS.get_set_ne _ GI_P BD_P _ (by decide)]
              exact FS.get_set_self fs BD_P .dir
            · intro g hg
              have hg1 : FS.get (FS.set fs BD_P .dir) GI_P = some (.file g) := by
                rw [FS.get_set_ne fs BD_P GI_P .dir hGB]; exact hg
              have : g' = g := by
                rw [FS.resolveNode_succ, hg1] at hrn
                injection hrn with h2
                injection h2 with h3
                exact h3.symm
              subst this
              exact Or.inr (FS.get_set_self _ GI_P _)
            · intro hg
              have hg1 : FS.get (FS.set fs BD_P .dir) GI_P = none := by
                rw [FS.get_set_ne fs BD_P GI_P .dir hGB]; exact hg
              rw [FS.resolveNode_succ, hg1] at hrn
              exact Option.noConfusion hrn
        · exact Except.noConfusion h
      case isFalse hgi =>
        cases h
        refine ⟨fun q hq1 _ => FS.get_set_ne fs BD_P q .dir hq1, ?_, ?_, ?_⟩
        · intro _; exact FS.get_set_self fs BD_P .dir
        · intro g hg
          exact Or.inl (by rw [FS.get_set_ne fs BD_P GI_P .dir hGB]; exact hg)
        · intro hg
          rw [FS.get_set_ne fs BD_P GI_P .dir hGB]; exact hg

/-! ## Claim C7: `--backup-only` frame effects -/

theorem T1_ne_bk (p : MPath) (ts : String) : T1 ≠ bkName p ts :=
  ne_bk_of_short "CLAUDE.md" p ts

theorem T2_ne_bk (p : MPath) (ts : String) : T2 ≠ bkName p ts :=
  ne_bk_of_short ".cursorrules" p ts

theorem T3_ne_bk (p : MPath) (ts : String) : T3 ≠ bkName p ts :=
  ne_bk_of_head ["copilot-instructions.md"] p ts (by decide)

theorem T4_ne_bk (p : MPath) (ts : String) : T4 ≠ bkName p ts :=
  ne_bk_of_head ["instructions.md"] p ts (by decide)

theorem T5_ne_bk (p : MPath) (ts : String) : T5 ≠ bkName p ts :=
  ne_bk_of_head ["context.md"] p ts (by decide)

theorem MASTER_ne_bk (p : MPath) (ts : String) : MASTER_P ≠ bkName p ts :=
  ne_bk_of_short ".ai-context.md" p ts

theorem AIDER_ne_bk (p : MPath) (ts : String) : AIDER_P ≠ bkName p ts :=
  ne_bk_of_short ".aider.conf.yml" p ts

theorem GI_ne_bk (p : MPath) (ts : String) : GI_P ≠ bkName p ts :=
  ne_bk_of_short ".gitignore" p ts

theorem BD_ne_bk (p : MPath) (ts : String) : BD_P ≠ bkName p ts :=
  ne_bk_of_short BACKUP_DIR_S p ts

theorem backups_frame (cwd : AbsPath) (fs : FS) (ts : String) (f : MPath → Bool × Bool)
    (q : MPath) (n1 : q ≠ T1) (n2 : q ≠ T2) (n3 : q ≠ T3) (n4 : q ≠ T4) (n5 : q ≠ T5)
    (b1 : q ≠ bkName T1 ts) (b2 : q ≠ bkName T2 ts) (b3 : q ≠ bkName T3 ts)
    (b4 : q ≠ bkName T4 ts) (b5 : q ≠ bkName T5 ts) :
    FS.get (AI_CONFIG_PATHS.foldl
      (fun acc p => (backup_existing_file cwd acc p ts (f p).1).1) fs) q = FS.get fs q := by
  simp only [AI_CONFIG_PATHS, List.foldl]
  rw [backup_frame _ _ _ _ _ _ n5 b5, backup_frame _ _ _ _ _ _ n4 b4,
    backup_frame _ _ _ _ _ _ n3 b3, backup_frame _ _ _ _ _ _ n2 b2,
    backup_frame _ _ _ _ _ _ n1 b1]

/-- C7.  In `--backup-only` mode (with `--verify` absent) the run never
creates the master file, the aider config, or any target: the master and
aider entries are untouched, every path other than the backup directory,
`.gitignore`, the five targets and their five backup destinations is
untouched, each target either disappears (moved aside) or keeps its previous
entry — an absent target stays absent — and the process exits with code 0
(assuming `create_backup_dir` does not raise, i.e. returns `.ok`). -/
theorem backup_only_frame_spec :
    ∀ (cwd : AbsPath) (fs fs1 : FS) (fc w cs priv : Bool) (ts : String)
      (f : MPath → Bool × Bool),
      create_backup_dir cwd fs = .ok fs1 →
      (main_run cwd fs ⟨false, true, fc⟩ w cs priv ts f).2 = 0 ∧
      FS.get (main_run cwd fs ⟨false, true, fc⟩ w cs priv ts f).1 MASTER_P =
        FS.get fs MASTER_P ∧
      FS.get (main_run cwd fs ⟨false, true, fc⟩ w cs priv ts f).1 AIDER_P =
        FS.get fs AIDER_P ∧
      (∀ q, q ≠ BD_P → q ≠ GI_P →
        q ≠ T1 → q ≠ T2 → q ≠ T3 → q ≠ T4 → q ≠ T5 →
        q ≠ bkName T1 ts → q ≠ bkName T2 ts → q ≠ bkName T3 ts →
        q ≠ bkName T4 ts → q ≠ bkName T5 ts →
        FS.get (main_run cwd fs ⟨false, true, fc⟩ w cs priv ts f).1 q = FS.get fs q) ∧
      (∀ t, t ∈ AI_CONFIG_PATHS →
        FS.get (main_run cwd fs ⟨false, true, fc⟩ w cs priv ts f).1 t = none ∨
        FS.get (main_run cwd fs ⟨false, true, fc⟩ w cs priv ts f).1 t = FS.get fs t) := by
  intro cwd fs fs1 fc w cs priv ts f h
  have hrun : main_run cwd fs ⟨false, true, fc⟩ w cs priv ts f =
      (AI_CONFIG_PATHS.foldl
        (fun acc p => (backup_existing_file cwd acc p ts (f p).1).1) fs1, 0) := by
    rw [main_run]
    simp [h]
  have hcf := (cbd_ok_spec cwd fs fs1 h).1
  have hMb : ∀ i : Fin 5, MASTER_P ≠ bkName ([T1, T2, T3, T4, T5].get i) ts := by
    intro i
    exact ne_bk_of_short _ _ _
  rw [hrun]
  refine ⟨rfl, ?_, ?_, ?_, ?_⟩
  · rw [backups_frame cwd fs1 ts f MASTER_P (by decide) (by decide) (by decide) (by decide)
      (by decide) (ne_bk_of_short _ _ _) (ne_bk_of_short _ _ _) (ne_bk_of_short _ _ _)
      (ne_bk_of_short _ _ _) (ne_bk_of_short _ _ _)]
    exact hcf MASTER_P (by decide) (by decide)
  · rw [backups_frame cwd fs1 ts f AIDER_P (by decide) (by decide) (by decide) (by decide)
      (by decide) (ne_bk_of_short _ _ _) (ne_bk_of_short _ _ _) (ne_bk_of_short _ _ _)
      (ne_bk_of_short _ _ _) (ne_bk_of_short _ _ _)]
    exact hcf AIDER_P (by decide) (by decide)
  · intro q hq1 hq2 hq3 hq4 hq5 hq6 hq7 hq8 hq9 hq10 hq11 hq12
    rw [backups_frame cwd fs1 ts f q hq3 hq4 hq5 hq6 hq7 hq8 hq9 hq10 hq11 hq12]
    exact hcf q hq1 hq2
  · intro t ht
    have hT1 : FS.get fs1 T1 = FS.get fs T1 := hcf T1 (by decide) (by decide)
    have hT2 : FS.get fs1 T2 = FS.get fs T2 := hcf T2 (by decide) (by decide)
    have hT3 : FS.get fs1 T3 = FS.get fs T3 := hcf T3 (by decide) (by decide)
    have hT4 : FS.get fs1 T4 = FS.get fs T4 := hcf T4 (by decide) (by decide)
    have hT5 : FS.get fs1 T5 = FS.get fs T5 := hcf T5 (by decide) (by decide)
    simp only [AI_CONFIG_PATHS, List.mem_cons, List.not_mem_nil, or_false] at ht
    simp only [AI_CONFIG_PATHS, List.foldl]
    rcases ht with rfl | rfl | rfl | rfl | rfl
    · rw [backup_frame cwd _ T5 ts _ T1 (by decide) (T1_ne_bk T5 ts),
        backup_frame cwd _ T4 ts _ T1 (by decide) (T1_ne_bk T4 ts),
        backup_frame cwd _ T3 ts _ T1 (by decide) (T1_ne_bk T3 ts),
        backup_frame cwd _ T2 ts _ T1 (by decide) (T1_ne_bk T2 ts)]
      rcases backup_self cwd fs1 T1 ts (f T1).1 with hs | hs
      · exact Or.inl hs
      · rw [hs, hT1]; exact Or.inr rfl
    · rw [backup_frame cwd _ T5 ts _ T2 (by decide) (T2_ne_bk T5 ts),
        backup_frame cwd _ T4 ts _ T2 (by decide) (T2_ne_bk T4 ts),
        backup_frame cwd _ T3 ts _ T2 (by decide) (T2_ne_bk T3 ts)]
      rcases backup_self cwd _ T2 ts (f T2).1 with hs | hs
      · exact Or.inl hs
      · rw [hs, backup_frame cwd fs1 T1 ts _ T2 (by decide) (T2_ne_bk T1 ts), hT2]
        exact Or.inr rfl
    · rw [backup_frame cwd _ T5 ts _ T3 (by decide) (T3_ne_bk T5 ts),
        backup_frame cwd _ T4 ts _ T3 (by decide) (T3_ne_bk T4 ts)]
      rcases backup_self cwd _ T3 ts (f T3).1 with hs | hs
      · exact Or.inl hs
      · rw [hs, backup_frame cwd _ T2 ts _ T3 (by decide) (T3_ne_bk T2 ts),
          backup_frame cwd fs1 T1 ts _ T3 (by decide) (T3_ne_bk T1 ts), hT3]
        exact Or.inr rfl
    · rw [backup_frame cwd _ T5 ts _ T4 (by decide) (T4_ne_bk T5 ts)]
      rcases backup_self cwd _ T4 ts (f T4).1 with hs | hs
      · exact Or.inl hs
      · rw [hs, backup_frame cwd _ T3 ts _ T4 (by decide) (T4_ne_bk T3 ts),
          backup_frame cwd _ T2 ts _ T4 (by decide) (T4_ne_bk T2 ts),
          backup_frame cwd fs1 T1 ts _ T4 (by decide) (T4_ne_bk T1 ts), hT4]
        exact Or.inr rfl
    · rcases backup_self cwd _ T5 ts (f T5).1 with hs | hs
      · exact Or.inl hs
      · rw [hs, backup_frame cwd _ T4 ts _ T5 (by decide) (T5_ne_bk T4 ts),
          backup_frame cwd _ T3 ts _ T5 (by decide) (T5_ne_bk T3 ts),
          backup_frame cwd _ T2 ts _ T5 (by decide) (T5_ne_bk T2 ts),
          backup_frame cwd fs1 T1 ts _ T5 (by decide) (T5_ne_bk T1 ts), hT5]
        exact Or.inr rfl

/-- C7 witness: on a concrete state with a pre-existing `CLAUDE.md` file,
`--backup-only` exits 0, leaves the master entry untouched (absent), and the
`CLAUDE.md` target is gone or unchanged. -/
theorem backup_only_frame_spec_witness :
    (main_run CWD0 FS0 ⟨false, true, false⟩ false true false TS0 noFaults).2 = 0 ∧
    FS.get (main_run CWD0 FS0 ⟨false, true, false⟩ false true false TS0 noFaults).1 MASTER_P =
      FS.get FS0 MASTER_P ∧
    (FS.get (main_run CWD0 FS0 ⟨false, true, false⟩ false true false TS0 noFaults).1 T1 = none ∨
     FS.get (main_run CWD0 FS0 ⟨false, true, false⟩ false true false TS0 noFaults).1 T1 =
       FS.get FS0 T1) := by
  have h := backup_only_frame_spec CWD0 FS0
    [(GI_P, .file ("node_modules/\n" ++ GITIGNORE_ENTRY)), (BD_P, .dir),
     (["README.md"], .file "readme"), (T1, .file "old claude settings")]
    false false true false TS0 noFaults rfl
  exact ⟨h.1, h.2.1, h.2.2.2.2 T1 (by decide)⟩

/-! ## Frame and success lemmas for `create_config_link` -/

theorem ensure_frame (cwd : AbsPath) (fs : FS) (p q : MPath)
    (h : ∀ r ∈ prefixesUp p.dropLast, q ≠ r) :
    FS.get (ensure_directory cwd fs p) q = FS.get fs q := by
  simp only [ensure_directory]
  split
  · rfl
  · exact mkdirP_frame fs p.dropLast q h

theorem ensure_unch_or_dir (cwd : AbsPath) (fs : FS) (p q : MPath) :
    FS.get (ensure_directory cwd fs p) q = FS.get fs q ∨
      FS.get (ensure_directory cwd fs p) q = some FSNode.dir := by
  simp only [ensure_directory]
  split
  · exact Or.inl rfl
  · exact mkdirP_unch_or_dir fs p.dropLast q

theorem fsSymlink_some (cwd : AbsPath) (fs fs' : FS) (p : MPath) (t : AbsPath)
    (h : fsSymlink cwd fs p t = some fs') : fs' = FS.set fs p (.symlink t) := by
  rw [fsSymlink] at h
  split at h
  · injection h with h1
    exact h1.symm
  · exact Option.noConfusion h

theorem fsCopyFromAbs_some (cwd : AbsPath) (fs fs' : FS) (src : AbsPath) (dst : MPath)
    (h : fsCopyFromAbs cwd fs src dst = some fs') :
    ∃ c, fs' = FS.set fs dst (.file c) := by
  rw [fsCopyFromAbs] at h
  split at h
  · rw [fsCopy] at h
    split at h
    · rename_i c hc
      split at h
      · injection h with h1
        exact ⟨c, h1.symm⟩
      · exact Option.noConfusion h
    · exact Option.noConfusion h
  · exact Option.noConfusion h

theorem ccl_frame (cwd : AbsPath) (fs : FS) (tgt L : MPath) (ts : String) (us bf cf : Bool)
    (q : MPath) (h1 : q ≠ L) (h2 : q ≠ bkName L ts)
    (h3 : ∀ r ∈ prefixesUp L.dropLast, q ≠ r) :
    FS.get (create_config_link cwd fs tgt L ts us bf cf).1 q = FS.get fs q := by
  have hbase : FS.get (backup_existing_file cwd (ensure_directory cwd fs L) L ts bf).1 q
      = FS.get fs q := by
    rw [backup_frame _ _ _ _ _ _ h1 h2, ensure_frame cwd fs L q h3]
  simp only [create_config_link]
  split
  · exact hbase
  · split
    · rename_i fs2 hres
      have h4 : ∃ n, fs2 = FS.set
          (backup_existing_file cwd (ensure_directory cwd fs L) L ts bf).1 L n := by
        split at hres
        · exact Option.noConfusion hres
        · split at hres
          · exact ⟨_, fsSymlink_some _ _ _ _ _ hres⟩
          · obtain ⟨c, hc⟩ := fsCopyFromAbs_some _ _ _ _ _ hres
            exact ⟨_, hc⟩
      obtain ⟨n, hn⟩ := h4
      rw [hn, FS.get_set_ne _ L q n h1]
      exact hbase
    · exact hbase

theorem ccl_unch_or_dir (cwd : AbsPath) (fs : FS) (tgt L : MPath) (ts : String)
    (us bf cf : Bool) (q : MPath) (h1 : q ≠ L) (h2 : q ≠ bkName L ts) :
    FS.get (create_config_link cwd fs tgt L ts us bf cf).1 q = FS.get fs q ∨
      FS.get (create_config_link cwd fs tgt L ts us bf cf).1 q = some FSNode.dir := by
  have hbase : FS.get (backup_existing_file cwd (ensure_directory cwd fs L) L ts bf).1 q
      = FS.get (ensure_directory cwd fs L) q := backup_frame _ _ _ _ _ _ h1 h2
  have hens := ensure_unch_or_dir cwd fs L q
  simp only [create_config_link]
  split
  · rw [hbase]; exact hens
  · split
    · rename_i fs2 hres
      have h4 : ∃ n, fs2 = FS.set
          (backup_existing_file cwd (ensure_directory cwd fs L) L ts bf).1 L n := by
        split at hres
        · exact Option.noConfusion hres
        · split at hres
          · exact ⟨_, fsSymlink_some _ _ _ _ _ hres⟩
          · obtain ⟨c, hc⟩ := fsCopyFromAbs_some _ _ _ _ _ hres
            exact ⟨_, hc⟩
      obtain ⟨n, hn⟩ := h4
      rw [hn, FS.get_set_ne _ L q n h1, hbase]
      exact hens
    · rw [hbase]; exact hens

theorem ccl_success (cwd : AbsPath) (fs fs' : FS) (L : MPath) (ts : String) (us bf cf : Bool)
    (m : String)
    (hM : FS.get fs MASTER_P = some (.file m))
    (hML : MASTER_P ≠ L) (hMb : MASTER_P ≠ bkName L ts)
    (hMp : ∀ r ∈ prefixesUp L.dropLast, MASTER_P ≠ r)
    (h : create_config_link cwd fs MASTER_P L ts us bf cf = (fs', true)) :
    FS.get fs' L = some (if us then FSNode.symlink (cwd ++ MASTER_P) else .file m) ∧
    FS.get fs' MASTER_P = some (.file m) := by
  have hfst : (create_config_link cwd fs MASTER_P L ts us bf cf).1 = fs' := by rw [h]
  have hMpost : FS.get fs' MASTER_P = some (.file m) := by
    rw [← hfst, ccl_frame cwd fs MASTER_P L ts us bf cf MASTER_P hML hMb hMp]
    exact hM
  refine ⟨?_, hMpost⟩
  have hM1 : FS.get (backup_existing_file cwd (ensure_directory cwd fs L) L ts bf).1 MASTER_P
      = some (.file m) := by
    rw [backup_frame _ _ _ _ _ _ hML hMb, ensure_frame cwd fs L MASTER_P hMp]
    exact hM
  simp only [create_config_link] at h
  split at h
  · exact absurd (congrArg Prod.snd h) (by simp)
  · split at h
    · rename_i fs2 hres
      have h2 : fs2 = fs' := congrArg Prod.fst h
      subst h2
      split at hres
      · exact Option.noConfusion hres
      · split at hres
        · rename_i hcf hus
          have h3 := fsSymlink_some _ _ _ _ _ hres
          rw [h3, FS.get_set_self]
          simp [hus, resolvePath]
        · rename_i hcf hus
          simp only [fsCopyFromAbs, resolvePath, stripCwd_append, fsCopy,
            FS.resolveNode_succ, hM1] at hres
          split at hres
          · injection hres with h3
            rw [← h3, FS.get_set_self]
            simp [hus]
          · exact Option.noConfusion hres
    · exact absurd (congrArg Prod.snd h) (by simp)

/-! ## Scenario lemmas: running one loop iteration on a well-formed state -/

theorem dropLast_ne_self {L : MPath} (h : L ≠ []) : L.dropLast ≠ L := by
  intro hc
  have h2 := congrArg List.length hc
  rw [List.length_dropLast] at h2
  have h3 : 0 < L.length := List.length_pos.2 h
  omega

theorem canWriteAt_congr (g g' : FS) (p : MPath) (h : FS.get g p = FS.get g' p) :
    canWriteAt g p = canWriteAt g' p := by
  simp only [canWriteAt, h]

theorem ensure_parent_dir (cwd : AbsPath) (fs : FS) (L : MPath) (x : String)
    (hx : L.dropLast = [x])
    (hpar : FS.get fs L.dropLast = some FSNode.dir ∨ FS.get fs L.dropLast = none) :
    FS.get (ensure_directory cwd fs L) L.dropLast = some FSNode.dir := by
  simp only [ensure_directory]
  split
  · rename_i hc
    rcases hpar with h | h
    · exact h
    · rw [Bool.or_eq_true] at hc
      rcases hc with hc | hc
      · rw [hx] at hc
        exact absurd hc (by simp)
      · rw [FS.pexists_of_get_none cwd fs L.dropLast h] at hc
        exact absurd hc (by simp)
  · rw [hx]
    rcases hpar with h | h
    · rw [hx] at h
      simp [mkdirP, prefixesUp, mkStep, h]
    · rw [hx] at h
      simp [mkdirP, prefixesUp, mkStep, h, FS.get_set_self]

theorem backup_run (cwd : AbsPath) (g : FS) (L : MPath) (ts : String)
    (hT : (∃ c, FS.get g L = some (.file c)) ∨ ∃ t, FS.get g L = some (.symlink t))
    (hBD : FS.get g BD_P = some FSNode.dir)
    (hW : canWriteAt g (bkName L ts) = true) :
    (backup_existing_file cwd g L ts false).2 = true ∧
    FS.get (backup_existing_file cwd g L ts false).1 L = none := by
  rcases hT with ⟨c, hc⟩ | ⟨t, ht⟩
  · have hl : FS.isLink g L = false := FS.isLink_of_get_file g L c hc
    have he : FS.pexists cwd g L = true := FS.pexists_of_get_file cwd g L c hc
    have hd : FS.resolveIsDir cwd g BD_P = true := FS.resolveIsDir_of_get_dir cwd g BD_P hBD
    rw [backup_existing_file]
    simp [he, hl, hc, hd, hW, FS.get_removeP_self]
  · have hl : FS.isLink g L = true := FS.isLink_of_get_link g L t ht
    rw [backup_existing_file]
    simp [hl, FS.get_removeP_self]

theorem create_run (cwd : AbsPath) (g : FS) (L : MPath) (us : Bool) (m : String)
    (hM : FS.get g MASTER_P = some (.file m))
    (hL : FS.get g L = none)
    (hpar : parentOkay cwd g L = true) :
    (if us then fsSymlink cwd g L (resolvePath cwd MASTER_P)
     else fsCopyFromAbs cwd g (resolvePath cwd MASTER_P) L) =
      some (FS.set g L (if us then FSNode.symlink (cwd ++ MASTER_P) else .file m)) := by
  cases us
  · have hcw : canWriteAt g L = true := by simp [canWriteAt, hL]
    simp [fsCopyFromAbs, resolvePath, stripCwd_append, fsCopy, FS.resolveNode_succ,
      hM, hpar, hcw]
  · simp [fsSymlink, hpar, hL, resolvePath]

theorem ccl_step_run (cwd : AbsPath) (fs : FS) (L : MPath) (ts : String) (us bf cf : Bool)
    (m : String)
    (hM : FS.get fs MASTER_P = some (.file m))
    (hBD : FS.get fs BD_P = some FSNode.dir)
    (hLne : L ≠ [])
    (hL2 : L.dropLast = [] ∨ ∃ x, L.dropLast = [x])
    (hpar : L.dropLast = [] ∨ FS.get fs L.dropLast = some FSNode.dir ∨
      FS.get fs L.dropLast = none)
    (hT : (∃ c, FS.get fs L = some (.file c)) ∨ ∃ t, FS.get fs L = some (.symlink t))
    (hW : canWriteAt fs (bkName L ts) = true)
    (hML : MASTER_P ≠ L) (hMb : MASTER_P ≠ bkName L ts)
    (hMpar : ∀ r ∈ prefixesUp L.dropLast, MASTER_P ≠ r)
    (hLpar : ∀ r ∈ prefixesUp L.dropLast, L ≠ r)
    (hbkpar : ∀ r ∈ prefixesUp L.dropLast, bkName L ts ≠ r) :
    (create_config_link cwd fs MASTER_P L ts us bf cf).2 = (!bf && !cf) ∧
    ((!bf && !cf) = true →
      FS.get (create_config_link cwd fs MASTER_P L ts us bf cf).1 L =
        some (if us then FSNode.symlink (cwd ++ MASTER_P) else .file m)) := by
  have hparneL : L.dropLast ≠ L := dropLast_ne_self hLne
  have hf0L : FS.get (ensure_directory cwd fs L) L = FS.get fs L :=
    ensure_frame cwd fs L L hLpar
  have hf0M : FS.get (ensure_directory cwd fs L) MASTER_P = some (.file m) := by
    rw [ensure_frame cwd fs L MASTER_P hMpar]; exact hM
  have hf0bk : FS.get (ensure_directory cwd fs L) (bkName L ts) = FS.get fs (bkName L ts) :=
    ensure_frame cwd fs L (bkName L ts) hbkpar
  have hf0BD : FS.get (ensure_directory cwd fs L) BD_P = some FSNode.dir := by
    rcases ensure_unch_or_dir cwd fs L BD_P with he | he
    · rw [he]; exact hBD
    · exact he
  have hf0T : (∃ c, FS.get (ensure_directory cwd fs L) L = some (.file c)) ∨
      ∃ t, FS.get (ensure_directory cwd fs L) L = some (.symlink t) := by
    rw [hf0L]; exact hT
  have hf0W : canWriteAt (ensure_directory cwd fs L) (bkName L ts) = true := by
    rw [canWriteAt_congr _ fs _ hf0bk]; exact hW
  have hf0pdir : L.dropLast = [] ∨
      FS.get (ensure_directory cwd fs L) L.dropLast = some FSNode.dir := by
    rcases hL2 with h0 | ⟨x, hx⟩
    · exact Or.inl h0
    · refine Or.inr (ensure_parent_dir cwd fs L x hx ?_)
      rcases hpar with h0 | h | h
      · rw [h0] at hx; exact absurd hx (by simp)
      · exact Or.inl h
      · exact Or.inr h
  have hcond : (FS.pexists cwd (ensure_directory cwd fs L) L ||
      FS.isLink (ensure_directory cwd fs L) L) = true := by
    rcases hf0T with ⟨c, hc⟩ | ⟨t, ht⟩
    · rw [Bool.or_eq_true]
      exact Or.inl (FS.pexists_of_get_file cwd _ L c hc)
    · rw [Bool.or_eq_true]
      exact Or.inr (FS.isLink_of_get_link _ L t ht)
  cases bf
  case true =>
    have hb : backup_existing_file cwd (ensure_directory cwd fs L) L ts true =
        (ensure_directory cwd fs L, false) := by
      rw [backup_existing_file]
      simp [hcond]
    constructor
    · simp [create_config_link, hb]
    · intro hok
      simp at hok
  case false =>
    have hbk := backup_run cwd (ensure_directory cwd fs L) L ts hf0T hf0BD hf0W
    have hbeq : backup_existing_file cwd (ensure_directory cwd fs L) L ts false =
        ((backup_existing_file cwd (ensure_directory cwd fs L) L ts false).1, true) := by
      rw [← hbk.1]
    have hbM : FS.get (backup_existing_file cwd (ensure_directory cwd fs L) L ts false).1
        MASTER_P = some (.file m) := by
      rw [backup_frame _ _ _ _ _ _ hML hMb]
      exact hf0M
    have hbpar : parentOkay cwd
        (backup_existing_file cwd (ensure_directory cwd fs L) L ts false).1 L = true := by
      rcases hf0pdir with h0 | hdir
      · rw [parentOkay, h0]
        rfl
      · have hppar : L.dropLast ≠ bkName L ts := by
          rcases hL2 with h0 | ⟨x, hx⟩
          · rw [h0] at hdir
            rw [h0]
            intro hc
            have := congrArg List.length hc
            simp [bkName] at this
          · rw [hx]
            have := hbkpar [x] (by rw [hx]; simp [prefixesUp])
            exact fun hc => this hc.symm
        have hg : FS.get (backup_existing_file cwd (ensure_directory cwd fs L) L ts false).1
            L.dropLast = some FSNode.dir := by
          rw [backup_frame _ _ _ _ _ _ hparneL hppar]
          exact hdir
        rw [parentOkay, Bool.or_eq_true]
        refine Or.inr ?_
        rw [FS.resolveIsDir, FS.resolveNode_succ, hg]
    cases cf
    case true =>
      constructor
      · simp [create_config_link, hbk.1]
      · intro hok
        simp at hok
    case false =>
      have hcr := create_run cwd
        (backup_existing_file cwd (ensure_directory cwd fs L) L ts false).1 L us m
        hbM hbk.2 hbpar
      constructor
      · simp [create_config_link, hbk.1, hcr]
      · intro _
        simp [create_config_link, hbk.1, hcr, FS.get_set_self]

/-! ## Per-step specifications used by the main-setup theorems -/

theorem cm_ok_spec (cwd : AbsPath) (fs fs1 : FS) (h : create_master_config cwd fs = some fs1)
    (hMb : FS.get fs MASTER_P = none ∨ ∃ m0, FS.get fs MASTER_P = some (.file m0)) :
    FS.get fs1 MASTER_P = some (.file (mAfter fs)) ∧
    (∀ q, q ≠ MASTER_P → FS.get fs1 q = FS.get fs q) := by
  rw [create_master_config] at h
  split at h
  · rename_i hex
    cases h
    rcases hMb with h0 | ⟨m0, hm0⟩
    · rw [FS.pexists_of_get_none cwd fs MASTER_P h0] at hex
      exact absurd hex (by simp)
    · refine ⟨?_, fun q _ => rfl⟩
      rw [mAfter, hm0]
  · rename_i hex
    rw [fsWrite] at h
    split at h
    · injection h with h1
      subst h1
      rcases hMb with h0 | ⟨m0, hm0⟩
      · refine ⟨?_, fun q hq => FS.get_set_ne fs MASTER_P q _ hq⟩
        rw [mAfter, h0, FS.get_set_self]
      · rw [FS.pexists_of_get_file cwd fs MASTER_P m0 hm0] at hex
        exact absurd rfl hex
    · exact Option.noConfusion h

theorem aider_ok_spec (cwd : AbsPath) (g g4 : FS) (h : create_aider_config cwd g = some g4) :
    (∀ q, q ≠ AIDER_P → FS.get g4 q = FS.get g q) ∧
    ((FS.get g AIDER_P = none ∨ ∃ a, FS.get g AIDER_P = some (.file a)) →
      ∃ a, FS.get g4 AIDER_P = some (.file a)) := by
  rw [create_aider_config] at h
  split at h
  · rename_i hex
    cases h
    refine ⟨fun q _ => rfl, ?_⟩
    intro hb
    rcases hb with h0 | h0
    · rw [FS.pexists_of_get_none cwd g AIDER_P h0] at hex
      exact absurd hex (by simp)
    · exact h0
  · rw [fsWrite] at h
    split at h
    · injection h with h1
      subst h1
      exact ⟨fun q hq => FS.get_set_ne g AIDER_P q _ hq,
        fun _ => ⟨AIDER_TEMPLATE, FS.get_set_self g AIDER_P _⟩⟩
    · exact Option.noConfusion h

theorem ccl_unch_or_file (cwd : AbsPath) (fs : FS) (tgt L : MPath) (ts : String)
    (us bf cf : Bool) (q : MPath) (h1 : q ≠ L)
    (h3 : ∀ r ∈ prefixesUp L.dropLast, q ≠ r) :
    FS.get (create_config_link cwd fs tgt L ts us bf cf).1 q = FS.get fs q ∨
      ∃ c, FS.get (create_config_link cwd fs tgt L ts us bf cf).1 q = some (.file c) := by
  have hens : FS.get (ensure_directory cwd fs L) q = FS.get fs q :=
    ensure_frame cwd fs L q h3
  have hbase := backup_unch_or_file cwd (ensure_directory cwd fs L) L ts bf q h1
  simp only [create_config_link]
  split
  · rcases hbase with h | h
    · exact Or.inl (by rw [h, hens])
    · exact Or.inr h
  · split
    · rename_i fs2 hres
      have h4 : ∃ n, fs2 = FS.set
          (backup_existing_file cwd (ensure_directory cwd fs L) L ts bf).1 L n := by
        split at hres
        · exact Option.noConfusion hres
        · split at hres
          · exact ⟨_, fsSymlink_some _ _ _ _ _ hres⟩
          · obtain ⟨c, hc⟩ := fsCopyFromAbs_some _ _ _ _ _ hres
            exact ⟨_, hc⟩
      obtain ⟨n, hn⟩ := h4
      rw [hn, FS.get_set_ne _ L q n h1]
      rcases hbase with h | h
      · exact Or.inl (by rw [h, hens])
      · exact Or.inr h
    · rcases hbase with h | h
      · exact Or.inl (by rw [h, hens])
      · exact Or.inr h

theorem main_setup_ok_shape (cwd : AbsPath) (fs : FS) (fc w cs priv : Bool) (ts : String)
    (f : MPath → Bool × Bool)
    (hraised : (main_setup cwd fs fc w cs priv ts f).raised = false) :
    ∃ fs1 fs2 fs4,
      create_master_config cwd fs = some fs1 ∧
      create_backup_dir cwd fs1 = .ok fs2 ∧
      create_aider_config cwd
        ((AI_CONFIG_PATHS.foldl (cclStep cwd ts (use_symlinks_of fc w cs priv) f)
          (fs2, 0)).1) = some fs4 ∧
      main_setup cwd fs fc w cs priv ts f =
        ⟨fs4,
         (AI_CONFIG_PATHS.foldl (cclStep cwd ts (use_symlinks_of fc w cs priv) f)
           (fs2, 0)).2,
         AI_CONFIG_PATHS.length, verify_setup cwd fs4, use_symlinks_of fc w cs priv,
         false⟩ := by
  rcases hm : create_master_config cwd fs with _ | fs1
  · simp [main_setup, hm] at hraised
  · rcases hb : create_backup_dir cwd fs1 with fsE | fs2
    · simp [main_setup, hm, hb] at hraised
    · rcases ha : create_aider_config cwd
          ((AI_CONFIG_PATHS.foldl (cclStep cwd ts (use_symlinks_of fc w cs priv) f)
            (fs2, 0)).1) with _ | fs4
      · simp [main_setup, hm, hb, ha] at hraised
      · refine ⟨fs1, fs2, fs4, rfl, hb, ha, ?_⟩
        simp [main_setup, hm, hb, ha]

theorem setup_post_of_success (cwd : AbsPath) (fs : FS) (fc w cs priv : Bool) (ts : String)
    (f : MPath → Bool × Bool)
    (hMb : FS.get fs MASTER_P = none ∨ ∃ m0, FS.get fs MASTER_P = some (.file m0))
    (hraised : (main_setup cwd fs fc w cs priv ts f).raised = false)
    (hcnt : (main_setup cwd fs fc w cs priv ts f).success_count = 5) :
    FS.get (main_setup cwd fs fc w cs priv ts f).fs MASTER_P = some (.file (mAfter fs)) ∧
    (∀ p ∈ AI_CONFIG_PATHS,
      FS.get (main_setup cwd fs fc w cs priv ts f).fs p =
        some (if use_symlinks_of fc w cs priv then FSNode.symlink (cwd ++ MASTER_P)
              else FSNode.file (mAfter fs))) ∧
    (main_setup cwd fs fc w cs priv ts f).verify_result = true ∧
    ((FS.get fs BD_P = none ∨ FS.get fs BD_P = some FSNode.dir) →
      FS.get (main_setup cwd fs fc w cs priv ts f).fs BD_P = some FSNode.dir) ∧
    (∀ P ∈ PARENT_DIRS,
      FS.get (main_setup cwd fs fc w cs priv ts f).fs P = FS.get fs P ∨
      FS.get (main_setup cwd fs fc w cs priv ts f).fs P = some FSNode.dir) ∧
    ((FS.get fs AIDER_P = none ∨ ∃ a, FS.get fs AIDER_P = some (.file a)) →
      ∃ a, FS.get (main_setup cwd fs fc w cs priv ts f).fs AIDER_P = some (.file a)) ∧
    (∀ g, FS.get fs GI_P = some (.file g) →
      FS.get (main_setup cwd fs fc w cs priv ts f).fs GI_P = some (.file g) ∨
      FS.get (main_setup cwd fs fc w cs priv ts f).fs GI_P =
        some (.file (g ++ GITIGNORE_ENTRY))) ∧
    (FS.get fs GI_P = none → FS.get (main_setup cwd fs fc w cs priv ts f).fs GI_P = none) ∧
    (∀ s, FS.get (main_setup cwd fs fc w cs priv ts f).fs [BACKUP_DIR_S, s] =
        FS.get fs [BACKUP_DIR_S, s] ∨
      ∃ c, FS.get (main_setup cwd fs fc w cs priv ts f).fs [BACKUP_DIR_S, s] =
        some (.file c)) := by
  obtain ⟨fs1, fs2, fs4, hm, hb, ha, heq⟩ :=
    main_setup_ok_shape cwd fs fc w cs priv ts f hraised
  obtain ⟨us, hus⟩ : ∃ b, use_symlinks_of fc w cs priv = b := ⟨_, rfl⟩
  rw [hus] at heq ha
  obtain ⟨g1, ok1, hs1⟩ :
      ∃ g o, create_config_link cwd fs2 MASTER_P T1 ts us (f T1).1 (f T1).2 = (g, o) :=
    ⟨_, _, rfl⟩
  obtain ⟨g2, ok2, hs2⟩ :
      ∃ g o, create_config_link cwd g1 MASTER_P T2 ts us (f T2).1 (f T2).2 = (g, o) :=
    ⟨_, _, rfl⟩
  obtain ⟨g3, ok3, hs3⟩ :
      ∃ g o, create_config_link cwd g2 MASTER_P T3 ts us (f T3).1 (f T3).2 = (g, o) :=
    ⟨_, _, rfl⟩
  obtain ⟨g4, ok4, hs4⟩ :
      ∃ g o, create_config_link cwd g3 MASTER_P T4 ts us (f T4).1 (f T4).2 = (g, o) :=
    ⟨_, _, rfl⟩
  obtain ⟨g5, ok5, hs5⟩ :
      ∃ g o, create_config_link cwd g4 MASTER_P T5 ts us (f T5).1 (f T5).2 = (g, o) :=
    ⟨_, _, rfl⟩
  have hfold : AI_CONFIG_PATHS.foldl (cclStep cwd ts us f) (fs2, 0) =
      (g5, (if ok1 = true then 1 else 0) + (if ok2 = true then 1 else 0) +
        (if ok3 = true then 1 else 0) + (if ok4 = true then 1 else 0) +
        (if ok5 = true then 1 else 0)) := by
    simp [AI_CONFIG_PATHS, List.foldl, cclStep, hs1, hs2, hs3, hs4, hs5]
  simp only [heq, hfold] at hcnt
  have b1 : (if ok1 = true then 1 else 0) ≤ 1 := by split <;> omega
  have b2 : (if ok2 = true then 1 else 0) ≤ 1 := by split <;> omega
  have b3 : (if ok3 = true then 1 else 0) ≤ 1 := by split <;> omega
  have b4 : (if ok4 = true then 1 else 0) ≤ 1 := by split <;> omega
  have b5 : (if ok5 = true then 1 else 0) ≤ 1 := by split <;> omega
  have hok1 : ok1 = true := by
    by_cases hq : ok1 = true
    · exact hq
    · rw [if_neg hq] at hcnt; exfalso; omega
  have hok2 : ok2 = true := by
    by_cases hq : ok2 = true
    · exact hq
    · rw [if_neg hq] at hcnt; exfalso; omega
  have hok3 : ok3 = true := by
    by_cases hq : ok3 = true
    · exact hq
    · rw [if_neg hq] at hcnt; exfalso; omega
  have hok4 : ok4 = true := by
    by_cases hq : ok4 = true
    · exact hq
    · rw [if_neg hq] at hcnt; exfalso; omega
  have hok5 : ok5 = true := by
    by_cases hq : ok5 = true
    · exact hq
    · rw [if_neg hq] at hcnt; exfalso; omega
  rw [hok1] at hs1
  rw [hok2] at hs2
  rw [hok3] at hs3
  rw [hok4] at hs4
  rw [hok5] at hs5
  have hcm := cm_ok_spec cwd fs fs1 hm hMb
  have hcb := cbd_ok_spec cwd fs1 fs2 hb
  have hM2 : FS.get fs2 MASTER_P = some (.file (mAfter fs)) := by
    rw [hcb.1 MASTER_P (by decide) (by decide)]
    exact hcm.1
  have hS1 := ccl_success cwd fs2 g1 T1 ts us (f T1).1 (f T1).2 (mAfter fs) hM2
    (by decide) (MASTER_ne_bk T1 ts) (by decide) hs1
  have hS2 := ccl_success cwd g1 g2 T2 ts us (f T2).1 (f T2).2 (mAfter fs) hS1.2
    (by decide) (MASTER_ne_bk T2 ts) (by decide) hs2
  have hS3 := ccl_success cwd g2 g3 T3 ts us (f T3).1 (f T3).2 (mAfter fs) hS2.2
    (by decide) (MASTER_ne_bk T3 ts) (by decide) hs3
  have hS4 := ccl_success cwd g3 g4 T4 ts us (f T4).1 (f T4).2 (mAfter fs) hS3.2
    (by decide) (MASTER_ne_bk T4 ts) (by decide) hs4
  have hS5 := ccl_success cwd g4 g5 T5 ts us (f T5).1 (f T5).2 (mAfter fs) hS4.2
    (by decide) (MASTER_ne_bk T5 ts) (by decide) hs5
  have hF1 : ∀ q, q ≠ T1 → q ≠ bkName T1 ts → (∀ r ∈ prefixesUp T1.dropLast, q ≠ r) →
      FS.get g1 q = FS.get fs2 q := by
    intro q h1 h2 h3
    have hh := ccl_frame cwd fs2 MASTER_P T1 ts us (f T1).1 (f T1).2 q h1 h2 h3
    rw [hs1] at hh
    exact hh
  have hF2 : ∀ q, q ≠ T2 → q ≠ bkName T2 ts → (∀ r ∈ prefixesUp T2.dropLast, q ≠ r) →
      FS.get g2 q = FS.get g1 q := by
    intro q h1 h2 h3
    have hh := ccl_frame cwd g1 MASTER_P T2 ts us (f T2).1 (f T2).2 q h1 h2 h3
    rw [hs2] at hh
    exact hh
  have hF3 : ∀ q, q ≠ T3 → q ≠ bkName T3 ts → (∀ r ∈ prefixesUp T3.dropLast, q ≠ r) →
      FS.get g3 q = FS.get g2 q := by
    intro q h1 h2 h3
    have hh := ccl_frame cwd g2 MASTER_P T3 ts us (f T3).1 (f T3).2 q h1 h2 h3
    rw [hs3] at hh
    exact hh
  have hF4 : ∀ q, q ≠ T4 → q ≠ bkName T4 ts → (∀ r ∈ prefixesUp T4.dropLast, q ≠ r) →
      FS.get g4 q = FS.get g3 q := by
    intro q h1 h2 h3
    have hh := ccl_frame cwd g3 MASTER_P T4 ts us (f T4).1 (f T4).2 q h1 h2 h3
    rw [hs4] at hh
    exact hh
  have hF5 : ∀ q, q ≠ T5 → q ≠ bkName T5 ts → (∀ r ∈ prefixesUp T5.dropLast, q ≠ r) →
      FS.get g5 q = FS.get g4 q := by
    intro q h1 h2 h3
    have hh := ccl_frame cwd g4 MASTER_P T5 ts us (f T5).1 (f T5).2 q h1 h2 h3
    rw [hs5] at hh
    exact hh
  have hU1 : ∀ q, q ≠ T1 → q ≠ bkName T1 ts →
      (FS.get g1 q = FS.get fs2 q ∨ FS.get g1 q = some FSNode.dir) := by
    intro q h1 h2
    have hh := ccl_unch_or_dir cwd fs2 MASTER_P T1 ts us (f T1).1 (f T1).2 q h1 h2
    rw [hs1] at hh
    exact hh
  have hU2 : ∀ q, q ≠ T2 → q ≠ bkName T2 ts →
      (FS.get g2 q = FS.get g1 q ∨ FS.get g2 q = some FSNode.dir) := by
    intro q h1 h2
    have hh := ccl_unch_or_dir cwd g1 MASTER_P T2 ts us (f T2).1 (f T2).2 q h1 h2
    rw [hs2] at hh
    exact hh
  have hU3 : ∀ q, q ≠ T3 → q ≠ bkName T3 ts →
      (FS.get g3 q = FS.get g2 q ∨ FS.get g3 q = some FSNode.dir) := by
    intro q h1 h2
    have hh := ccl_unch_or_dir cwd g2 MASTER_P T3 ts us (f T3).1 (f T3).2 q h1 h2
    rw [hs3] at hh
    exact hh
  have hU4 : ∀ q, q ≠ T4 → q ≠ bkName T4 ts →
      (FS.get g4 q = FS.get g3 q ∨ FS.get g4 q = some FSNode.dir) := by
    intro q h1 h2
    have hh := ccl_unch_or_dir cwd g3 MASTER_P T4 ts us (f T4).1 (f T4).2 q h1 h2
    rw [hs4] at hh
    exact hh
  have hU5 : ∀ q, q ≠ T5 → q ≠ bkName T5 ts →
      (FS.get g5 q = FS.get g4 q ∨ FS.get g5 q = some FSNode.dir) := by
    intro q h1 h2
    have hh := ccl_unch_or_dir cwd g4 MASTER_P T5 ts us (f T5).1 (f T5).2 q h1 h2
    rw [hs5] at hh
    exact hh
  have hUF1 : ∀ q, q ≠ T1 → (∀ r ∈ prefixesUp T1.dropLast, q ≠ r) →
      (FS.get g1 q = FS.get fs2 q ∨ ∃ c, FS.get g1 q = some (.file c)) := by
    intro q h1 h3
    have hh := ccl_unch_or_file cwd fs2 MASTER_P T1 ts us (f T1).1 (f T1).2 q h1 h3
    rw [hs1] at hh
    exact hh
  have hUF2 : ∀ q, q ≠ T2 → (∀ r ∈ prefixesUp T2.dropLast, q ≠ r) →
      (FS.get g2 q = FS.get g1 q ∨ ∃ c, FS.get g2 q = some (.file c)) := by
    intro q h1 h3
    have hh := ccl_unch_or_file cwd g1 MASTER_P T2 ts us (f T2).1 (f T2).2 q h1 h3
    rw [hs2] at hh
    exact hh
  have hUF3 : ∀ q, q ≠ T3 → (∀ r ∈ prefixesUp T3.dropLast, q ≠ r) →
      (FS.get g3 q = FS.get g2 q ∨ ∃ c, FS.get g3 q = some (.file c)) := by
    intro q h1 h3
    have hh := ccl_unch_or_file cwd g2 MASTER_P T3 ts us (f T3).1 (f T3).2 q h1 h3
    rw [hs3] at hh
    exact hh
  have hUF4 : ∀ q, q ≠ T4 → (∀ r ∈ prefixesUp T4.dropLast, q ≠ r) →
      (FS.get g4 q = FS.get g3 q ∨ ∃ c, FS.get g4 q = some (.file c)) := by
    intro q h1 h3
    have hh := ccl_unch_or_file cwd g3 MASTER_P T4 ts us (f T4).1 (f T4).2 q h1 h3
    rw [hs4] at hh
    exact hh
  have hUF5 : ∀ q, q ≠ T5 → (∀ r ∈ prefixesUp T5.dropLast, q ≠ r) →
      (FS.get g5 q = FS.get g4 q ∨ ∃ c, FS.get g5 q = some (.file c)) := by
    intro q h1 h3
    have hh := ccl_unch_or_file cwd g4 MASTER_P T5 ts us (f T5).1 (f T5).2 q h1 h3
    rw [hs5] at hh
    exact hh
  simp only [hfold] at ha
  have hAid := aider_ok_spec cwd g5 fs4 ha
  have hMf : FS.get fs4 MASTER_P = some (.file (mAfter fs)) := by
    rw [hAid.1 MASTER_P (by decide)]
    exact hS5.2
  have hT1f : FS.get fs4 T1 =
      some (if us then FSNode.symlink (cwd ++ MASTER_P) else .file (mAfter fs)) := by
    rw [hAid.1 T1 (by decide),
      hF5 T1 (by decide) (T1_ne_bk T5 ts) (by decide),
      hF4 T1 (by decide) (T1_ne_bk T4 ts) (by decide),
      hF3 T1 (by decide) (T1_ne_bk T3 ts) (by decide),
      hF2 T1 (by decide) (T1_ne_bk T2 ts) (by decide)]
    exact hS1.1
  have hT2f : FS.get fs4 T2 =
      some (if us then FSNode.symlink (cwd ++ MASTER_P) else .file (mAfter fs)) := by
    rw [hAid.1 T2 (by decide),
      hF5 T2 (by decide) (T2_ne_bk T5 ts) (by decide),
      hF4 T2 (by decide) (T2_ne_bk T4 ts) (by decide),
      hF3 T2 (by decide) (T2_ne_bk T3 ts) (by decide)]
    exact hS2.1
  have hT3f : FS.get fs4 T3 =
      some (if us then FSNode.symlink (cwd ++ MASTER_P) else .file (mAfter fs)) := by
    rw [hAid.1 T3 (by decide),
      hF5 T3 (by decide) (T3_ne_bk T5 ts) (by decide),
      hF4 T3 (by decide) (T3_ne_bk T4 ts) (by decide)]
    exact hS3.1
  have hT4f : FS.get fs4 T4 =
      some (if us then FSNode.symlink (cwd ++ MASTER_P) else .file (mAfter fs)) := by
    rw [hAid.1 T4 (by decide),
      hF5 T4 (by decide) (T4_ne_bk T5 ts) (by decide)]
    exact hS4.1
  have hT5f : FS.get fs4 T5 =
      some (if us then FSNode.symlink (cwd ++ MASTER_P) else .file (mAfter fs)) := by
    rw [hAid.1 T5 (by decide)]
    exact hS5.1
  have hexM : FS.pexists cwd fs4 MASTER_P = true :=
    FS.pexists_of_get_file cwd fs4 MASTER_P _ hMf
  have hexT : ∀ L : MPath,
      FS.get fs4 L = some (if us then FSNode.symlink (cwd ++ MASTER_P)
        else .file (mAfter fs)) →
      FS.pexists cwd fs4 L = true := by
    intro L hL
    cases us
    · simp only [Bool.false_eq_true, if_false] at hL
      exact FS.pexists_of_get_file cwd fs4 L _ hL
    · simp only [if_true] at hL
      exact FS.pexists_of_link_to_file cwd fs4 L MASTER_P _ hL hMf
  have hver : verify_setup cwd fs4 = true := by
    rw [verify_setup_iff]
    exact ⟨hexM, hexT T1 hT1f, hexT T2 hT2f, hexT T3 hT3f, hexT T4 hT4f, hexT T5 hT5f⟩
  have hstepBD : ∀ a b : FS,
      (FS.get b BD_P = FS.get a BD_P ∨ FS.get b BD_P = some FSNode.dir) →
      FS.get a BD_P = some FSNode.dir → FS.get b BD_P = some FSNode.dir := by
    intro a b h hA
    rcases h with h | h
    · rw [h]; exact hA
    · exact h
  have hBDconc : (FS.get fs BD_P = none ∨ FS.get fs BD_P = some FSNode.dir) →
      FS.get fs4 BD_P = some FSNode.dir := by
    intro hbd
    have h2 : FS.get fs2 BD_P = some FSNode.dir := by
      refine hcb.2.1 ?_
      rw [hcm.2 BD_P (by decide)]
      exact hbd
    have h3 := hstepBD _ _ (hU1 BD_P (by decide) (BD_ne_bk T1 ts)) h2
    have h4 := hstepBD _ _ (hU2 BD_P (by decide) (BD_ne_bk T2 ts)) h3
    have h5 := hstepBD _ _ (hU3 BD_P (by decide) (BD_ne_bk T3 ts)) h4
    have h6 := hstepBD _ _ (hU4 BD_P (by decide) (BD_ne_bk T4 ts)) h5
    have h7 := hstepBD _ _ (hU5 BD_P (by decide) (BD_ne_bk T5 ts)) h6
    rw [hAid.1 BD_P (by decide)]
    exact h7
  have hchain : ∀ q : MPath, FS.get fs2 q = FS.get fs q →
      (FS.get g1 q = FS.get fs2 q ∨ FS.get g1 q = some FSNode.dir) →
      (FS.get g2 q = FS.get g1 q ∨ FS.get g2 q = some FSNode.dir) →
      (FS.get g3 q = FS.get g2 q ∨ FS.get g3 q = some FSNode.dir) →
      (FS.get g4 q = FS.get g3 q ∨ FS.get g4 q = some FSNode.dir) →
      (FS.get g5 q = FS.get g4 q ∨ FS.get g5 q = some FSNode.dir) →
      FS.get g5 q = FS.get fs q ∨ FS.get g5 q = some FSNode.dir := by
    intro q h0 h1 h2 h3 h4 h5
    rcases h5 with h5 | h5
    · rcases h4 with h4 | h4
      · rcases h3 with h3 | h3
        · rcases h2 with h2 | h2
          · rcases h1 with h1 | h1
            · exact Or.inl (by rw [h5, h4, h3, h2, h1, h0])
            · exact Or.inr (by rw [h5, h4, h3, h2, h1])
          · exact Or.inr (by rw [h5, h4, h3, h2])
        · exact Or.inr (by rw [h5, h4, h3])
      · exact Or.inr (by rw [h5, h4])
    · exact Or.inr h5
  have hPar : ∀ P ∈ PARENT_DIRS,
      FS.get fs4 P = FS.get fs P ∨ FS.get fs4 P = some FSNode.dir := by
    intro P hP
    simp only [PARENT_DIRS, List.mem_cons, List.not_mem_nil, or_false] at hP
    rcases hP with rfl | rfl | rfl
    · have h0 : FS.get fs2 [".github"] = FS.get fs [".github"] := by
        rw [hcb.1 _ (by decide) (by decide), hcm.2 _ (by decide)]
      have hg5 := hchain [".github"] h0
        (hU1 _ (by decide) (ne_bk_of_short _ _ _))
        (hU2 _ (by decide) (ne_bk_of_short _ _ _))
        (hU3 _ (by decide) (ne_bk_of_short _ _ _))
        (hU4 _ (by decide) (ne_bk_of_short _ _ _))
        (hU5 _ (by decide) (ne_bk_of_short _ _ _))
      rw [hAid.1 _ (by decide)]
      exact hg5
    · have h0 : FS.get fs2 [".codeium"] = FS.get fs [".codeium"] := by
        rw [hcb.1 _ (by decide) (by decide), hcm.2 _ (by decide)]
      have hg5 := hchain [".codeium"] h0
        (hU1 _ (by decide) (ne_bk_of_short _ _ _))
        (hU2 _ (by decide) (ne_bk_of_short _ _ _))
        (hU3 _ (by decide) (ne_bk_of_short _ _ _))
        (hU4 _ (by decide) (ne_bk_of_short _ _ _))
        (hU5 _ (by decide) (ne_bk_of_short _ _ _))
      rw [hAid.1 _ (by decide)]
      exact hg5
    · have h0 : FS.get fs2 [".continue"] = FS.get fs [".continue"] := by
        rw [hcb.1 _ (by decide) (by decide), hcm.2 _ (by decide)]
      have hg5 := hchain [".continue"] h0
        (hU1 _ (by decide) (ne_bk_of_short _ _ _))
        (hU2 _ (by decide) (ne_bk_of_short _ _ _))
        (hU3 _ (by decide) (ne_bk_of_short _ _ _))
        (hU4 _ (by decide) (ne_bk_of_short _ _ _))
        (hU5 _ (by decide) (ne_bk_of_short _ _ _))
      rw [hAid.1 _ (by decide)]
      exact hg5
  have hAidf : (FS.get fs AIDER_P = none ∨ ∃ a, FS.get fs AIDER_P = some (.file a)) →
      ∃ a, FS.get fs4 AIDER_P = some (.file a) := by
    intro hA
    refine hAid.2 ?_
    have h0 : FS.get g5 AIDER_P = FS.get fs AIDER_P := by
      rw [hF5 _ (by decide) (AIDER_ne_bk T5 ts) (by decide),
        hF4 _ (by decide) (AIDER_ne_bk T4 ts) (by decide),
        hF3 _ (by decide) (AIDER_ne_bk T3 ts) (by decide),
        hF2 _ (by decide) (AIDER_ne_bk T2 ts) (by decide),
        hF1 _ (by decide) (AIDER_ne_bk T1 ts) (by decide),
        hcb.1 _ (by decide) (by decide), hcm.2 _ (by decide)]
    rw [h0]
    exact hA
  have hGIframe : FS.get fs4 GI_P = FS.get fs2 GI_P := by
    rw [hAid.1 _ (by decide),
      hF5 _ (by decide) (GI_ne_bk T5 ts) (by decide),
      hF4 _ (by decide) (GI_ne_bk T4 ts) (by decide),
      hF3 _ (by decide) (GI_ne_bk T3 ts) (by decide),
      hF2 _ (by decide) (GI_ne_bk T2 ts) (by decide),
      hF1 _ (by decide) (GI_ne_bk T1 ts) (by decide)]
  have hGI1 : ∀ g, FS.get fs GI_P = some (.file g) →
      FS.get fs4 GI_P = some (.file g) ∨
      FS.get fs4 GI_P = some (.file (g ++ GITIGNORE_ENTRY)) := by
    intro g hg
    have hg1 : FS.get fs1 GI_P = some (.file g) := by
      rw [hcm.2 _ (by decide)]; exact hg
    rcases hcb.2.2.1 g hg1 with h | h
    · exact Or.inl (by rw [hGIframe]; exact h)
    · exact Or.inr (by rw [hGIframe]; exact h)
  have hGI2 : FS.get fs GI_P = none → FS.get fs4 GI_P = none := by
    intro hg
    rw [hGIframe]
    refine hcb.2.2.2 ?_
    rw [hcm.2 _ (by decide)]
    exact hg
  have hd1 : prefixesUp T1.dropLast = [] := by decide
  have hd2 : prefixesUp T2.dropLast = [] := by decide
  have hd3 : prefixesUp T3.dropLast = [[".github"]] := by decide
  have hd4 : prefixesUp T4.dropLast = [[".codeium"]] := by decide
  have hd5 : prefixesUp T5.dropLast = [[".continue"]] := by decide
  have hBKarea : ∀ s, FS.get fs4 [BACKUP_DIR_S, s] = FS.get fs [BACKUP_DIR_S, s] ∨
      ∃ c, FS.get fs4 [BACKUP_DIR_S, s] = some (.file c) := by
    intro s
    have hqM : ([BACKUP_DIR_S, s] : MPath) ≠ MASTER_P := ne_of_length_ne (by simp [MASTER_P])
    have hqBD : ([BACKUP_DIR_S, s] : MPath) ≠ BD_P := ne_of_length_ne (by simp [BD_P])
    have hqGI : ([BACKUP_DIR_S, s] : MPath) ≠ GI_P := ne_of_length_ne (by simp [GI_P])
    have hqA : ([BACKUP_DIR_S, s] : MPath) ≠ AIDER_P := ne_of_length_ne (by simp [AIDER_P])
    have hqT1 : ([BACKUP_DIR_S, s] : MPath) ≠ T1 := ne_of_length_ne (by simp [T1])
    have hqT2 : ([BACKUP_DIR_S, s] : MPath) ≠ T2 := ne_of_length_ne (by simp [T2])
    have hqT3 : ([BACKUP_DIR_S, s] : MPath) ≠ T3 := ne_of_head_ne (by decide)
    have hqT4 : ([BACKUP_DIR_S, s] : MPath) ≠ T4 := ne_of_head_ne (by decide)
    have hqT5 : ([BACKUP_DIR_S, s] : MPath) ≠ T5 := ne_of_head_ne (by decide)
    have hp1 : ∀ r ∈ prefixesUp T1.dropLast, ([BACKUP_DIR_S, s] : MPath) ≠ r := by
      intro r hr; rw [hd1] at hr; exact absurd hr (List.not_mem_nil r)
    have hp2 : ∀ r ∈ prefixesUp T2.dropLast, ([BACKUP_DIR_S, s] : MPath) ≠ r := by
      intro r hr; rw [hd2] at hr; exact absurd hr (List.not_mem_nil r)
    have hp3 : ∀ r ∈ prefixesUp T3.dropLast, ([BACKUP_DIR_S, s] : MPath) ≠ r := by
      intro r hr; rw [hd3] at hr
      rcases List.mem_singleton.1 hr with rfl
      exact ne_of_length_ne (by simp)
    have hp4 : ∀ r ∈ prefixesUp T4.dropLast, ([BACKUP_DIR_S, s] : MPath) ≠ r := by
      intro r hr; rw [hd4] at hr
      rcases List.mem_singleton.1 hr with rfl
      exact ne_of_length_ne (by simp)
    have hp5 : ∀ r ∈ prefixesUp T5.dropLast, ([BACKUP_DIR_S, s] : MPath) ≠ r := by
      intro r hr; rw [hd5] at hr
      rcases List.mem_singleton.1 hr with rfl
      exact ne_of_length_ne (by simp)
    have c0 : FS.get fs2 [BACKUP_DIR_S, s] = FS.get fs [BACKUP_DIR_S, s] := by
      rw [hcb.1 _ hqBD hqGI, hcm.2 _ hqM]
    have c1 := hUF1 _ hqT1 hp1
    have c2 := hUF2 _ hqT2 hp2
    have c3 := hUF3 _ hqT3 hp3
    have c4 := hUF4 _ hqT4 hp4
    have c5 := hUF5 _ hqT5 hp5
    have cA : FS.get fs4 [BACKUP_DIR_S, s] = FS.get g5 [BACKUP_DIR_S, s] := hAid.1 _ hqA
    rw [cA]
    rcases c5 with c5 | c5
    · rw [c5]
      rcases c4 with c4 | c4
      · rw [c4]
        rcases c3 with c3 | c3
        · rw [c3]
          rcases c2 with c2 | c2
          · rw [c2]
            rcases c1 with c1 | c1
            · rw [c1, c0]; exact Or.inl rfl
            · exact Or.inr c1
          · exact Or.inr c2
        · exact Or.inr c3
      · exact Or.inr c4
    · exact Or.inr c5
  simp only [heq, hus]
  refine ⟨hMf, ?_, hver, hBDconc, hPar, hAidf, hGI1, hGI2, hBKarea⟩
  intro p hp
  simp only [AI_CONFIG_PATHS, List.mem_cons, List.not_mem_nil, or_false] at hp
  rcases hp with rfl | rfl | rfl | rfl | rfl
  exacts [hT1f, hT2f, hT3f, hT4f, hT5f]

theorem main_setup_total (cwd : AbsPath) (fs : FS) (fc w cs priv : Bool) (ts : String)
    (f : MPath → Bool × Bool) :
    (main_setup cwd fs fc w cs priv ts f).total_count = AI_CONFIG_PATHS.length := by
  simp only [main_setup]
  split
  · rfl
  · split
    · rfl
    · split
      · rfl
      · rfl

theorem main_setup_method (cwd : AbsPath) (fs : FS) (fc w cs priv : Bool) (ts : String)
    (f : MPath → Bool × Bool) :
    (main_setup cwd fs fc w cs priv ts f).method_symlinks = use_symlinks_of fc w cs priv := by
  simp only [main_setup]
  split
  · rfl
  · split
    · rfl
    · split
      · rfl
      · rfl

/-! ## Claim C2: a fully successful run materializes every target -/

/-- C2.  After a run of full setup in which every per-target materialization
succeeds (success count equals the total of 5) and no step raises, starting
from a state whose master entry is absent or a regular file: the master file
is a regular file (pre-existing content, or the template when it was absent),
and each of the 5 targets exists — under the SYMLINK strategy as a symlink
whose stored target is the master file's absolute (resolved) path, and under
the COPY strategy as a regular file (not a symlink) whose byte content equals
the master file's byte content at the time of the copy (the master file is
never touched after its creation step, so that content is `mAfter fs`). -/
theorem setup_materializes_targets :
    ∀ (cwd : AbsPath) (fs : FS) (fc w cs priv : Bool) (ts : String)
      (f : MPath → Bool × Bool),
      (FS.get fs MASTER_P = none ∨ ∃ m0, FS.get fs MASTER_P = some (.file m0)) →
      (main_setup cwd fs fc w cs priv ts f).raised = false →
      (main_setup cwd fs fc w cs priv ts f).success_count =
        (main_setup cwd fs fc w cs priv ts f).total_count →
      FS.get (main_setup cwd fs fc w cs priv ts f).fs MASTER_P =
        some (.file (mAfter fs)) ∧
      (∀ p ∈ AI_CONFIG_PATHS,
        FS.get (main_setup cwd fs fc w cs priv ts f).fs p =
          some (if (main_setup cwd fs fc w cs priv ts f).method_symlinks
            then FSNode.symlink (resolvePath cwd MASTER_P)
            else FSNode.file (mAfter fs))) := by
  intro cwd fs fc w cs priv ts f hMb hraised hcnt
  have hcnt5 : (main_setup cwd fs fc w cs priv ts f).success_count = 5 :=
    (hcnt.trans (main_setup_total cwd fs fc w cs priv ts f)).trans rfl
  have h := setup_post_of_success cwd fs fc w cs priv ts f hMb hraised hcnt5
  refine ⟨h.1, ?_⟩
  intro p hp
  rw [main_setup_method]
  have h2 := h.2.1 p hp
  rw [h2]
  rfl

/-- C2 witness: a fault-free symlink-strategy run from the empty filesystem. -/
theorem setup_materializes_targets_witness :
    FS.get (main_setup CWD0 [] false false true false TS0 noFaults).fs MASTER_P =
      some (.file (mAfter [])) ∧
    FS.get (main_setup CWD0 [] false false true false TS0 noFaults).fs T1 =
      some (if (main_setup CWD0 [] false false true false TS0 noFaults).method_symlinks
        then FSNode.symlink (resolvePath CWD0 MASTER_P)
        else FSNode.file (mAfter [])) := by
  have h := setup_materializes_targets CWD0 [] false false true false TS0 noFaults
    (Or.inl rfl) (by decide) (by decide)
  exact ⟨h.1, h.2 T1 (by decide)⟩

theorem str_append_right_cancel {a b t : String} (h : a ++ t = b ++ t) : a = b := by
  apply String.ext
  have h2 := congrArg String.data h
  rw [String.data_append, String.data_append] at h2
  exact List.append_cancel_right h2

theorem bkName_ne_of_lastName_ne (p q : MPath) (ts : String)
    (h : lastName p ++ "_" ≠ lastName q ++ "_") : bkName p ts ≠ bkName q ts := by
  rw [bkName, bkName]
  intro he
  injection he with _ h2
  injection h2 with h3 _
  exact h (str_append_right_cancel h3)

theorem create_aider_ok_of_benign (cwd : AbsPath) (g : FS)
    (hA : FS.get g AIDER_P = none ∨ ∃ a, FS.get g AIDER_P = some (.file a)) :
    ∃ g4, create_aider_config cwd g = some g4 := by
  rcases hA with h | ⟨a, h⟩
  · have hc1 : parentOkay cwd g AIDER_P = true := rfl
    have hc2 : canWriteAt g AIDER_P = true := by simp [canWriteAt, h]
    refine ⟨FS.set g AIDER_P (.file AIDER_TEMPLATE), ?_⟩
    rw [create_aider_config, FS.pexists_of_get_none cwd g AIDER_P h]
    simp [fsWrite, hc1, hc2]
  · refine ⟨g, ?_⟩
    rw [create_aider_config, FS.pexists_of_get_file cwd g AIDER_P a h]
    simp

theorem setup_scenario (cwd : AbsPath) (fs : FS) (fc w cs priv : Bool) (ts : String)
    (f : MPath → Bool × Bool) (m : String)
    (hM : FS.get fs MASTER_P = some (.file m))
    (hBD : FS.get fs BD_P = some FSNode.dir)
    (hGH : FS.get fs [".github"] = some FSNode.dir ∨ FS.get fs [".github"] = none)
    (hCD : FS.get fs [".codeium"] = some FSNode.dir ∨ FS.get fs [".codeium"] = none)
    (hCN : FS.get fs [".continue"] = some FSNode.dir ∨ FS.get fs [".continue"] = none)
    (hA : FS.get fs AIDER_P = none ∨ ∃ a, FS.get fs AIDER_P = some (.file a))
    (hT1 : (∃ c, FS.get fs T1 = some (.file c)) ∨ ∃ t, FS.get fs T1 = some (.symlink t))
    (hT2 : (∃ c, FS.get fs T2 = some (.file c)) ∨ ∃ t, FS.get fs T2 = some (.symlink t))
    (hT3 : (∃ c, FS.get fs T3 = some (.file c)) ∨ ∃ t, FS.get fs T3 = some (.symlink t))
    (hT4 : (∃ c, FS.get fs T4 = some (.file c)) ∨ ∃ t, FS.get fs T4 = some (.symlink t))
    (hT5 : (∃ c, FS.get fs T5 = some (.file c)) ∨ ∃ t, FS.get fs T5 = some (.symlink t))
    (hW1 : canWriteAt fs (bkName T1 ts) = true)
    (hW2 : canWriteAt fs (bkName T2 ts) = true)
    (hW3 : canWriteAt fs (bkName T3 ts) = true)
    (hW4 : canWriteAt fs (bkName T4 ts) = true)
    (hW5 : canWriteAt fs (bkName T5 ts) = true) :
    (main_setup cwd fs fc w cs priv ts f).raised = false ∧
    (main_setup cwd fs fc w cs priv ts f).total_count = 5 ∧
    (main_setup cwd fs fc w cs priv ts f).success_count =
      ((if !(f T1).1 && !(f T1).2 then 1 else 0) +
       (if !(f T2).1 && !(f T2).2 then 1 else 0) +
       (if !(f T3).1 && !(f T3).2 then 1 else 0) +
       (if !(f T4).1 && !(f T4).2 then 1 else 0) +
       (if !(f T5).1 && !(f T5).2 then 1 else 0)) ∧
    FS.get (main_setup cwd fs fc w cs priv ts f).fs GI_P = FS.get fs GI_P ∧
    FS.get (main_setup cwd fs fc w cs priv ts f).fs MASTER_P = some (.file m) ∧
    ((!(f T1).1 && !(f T1).2) = true →
      FS.get (main_setup cwd fs fc w cs priv ts f).fs T1 =
        some (if use_symlinks_of fc w cs priv then FSNode.symlink (cwd ++ MASTER_P)
          else FSNode.file m)) ∧
    ((!(f T2).1 && !(f T2).2) = true →
      FS.get (main_setup cwd fs fc w cs priv ts f).fs T2 =
        some (if use_symlinks_of fc w cs priv then FSNode.symlink (cwd ++ MASTER_P)
          else FSNode.file m)) ∧
    ((!(f T3).1 && !(f T3).2) = true →
      FS.get (main_setup cwd fs fc w cs priv ts f).fs T3 =
        some (if use_symlinks_of fc w cs priv then FSNode.symlink (cwd ++ MASTER_P)
          else FSNode.file m)) ∧
    ((!(f T4).1 && !(f T4).2) = true →
      FS.get (main_setup cwd fs fc w cs priv ts f).fs T4 =
        some (if use_symlinks_of fc w cs priv then FSNode.symlink (cwd ++ MASTER_P)
          else FSNode.file m)) ∧
    ((!(f T5).1 && !(f T5).2) = true →
      FS.get (main_setup cwd fs fc w cs priv ts f).fs T5 =
        some (if use_symlinks_of fc w cs priv then FSNode.symlink (cwd ++ MASTER_P)
          else FSNode.file m)) ∧
    ((∀ p, f p = (false, false)) →
      (main_setup cwd fs fc w cs priv ts f).verify_result = true) := by
  obtain ⟨us, hus⟩ : ∃ b, use_symlinks_of fc w cs priv = b := ⟨_, rfl⟩
  obtain ⟨g1, ok1, hs1⟩ :
      ∃ g o, create_config_link cwd fs MASTER_P T1 ts us (f T1).1 (f T1).2 = (g, o) :=
    ⟨_, _, rfl⟩
  obtain ⟨g2, ok2, hs2⟩ :
      ∃ g o, create_config_link cwd g1 MASTER_P T2 ts us (f T2).1 (f T2).2 = (g, o) :=
    ⟨_, _, rfl⟩
  obtain ⟨g3, ok3, hs3⟩ :
      ∃ g o, create_config_link cwd g2 MASTER_P T3 ts us (f T3).1 (f T3).2 = (g, o) :=
    ⟨_, _, rfl⟩
  obtain ⟨g4, ok4, hs4⟩ :
      ∃ g o, create_config_link cwd g3 MASTER_P T4 ts us (f T4).1 (f T4).2 = (g, o) :=
    ⟨_, _, rfl⟩
  obtain ⟨g5, ok5, hs5⟩ :
      ∃ g o, create_config_link cwd g4 MASTER_P T5 ts us (f T5).1 (f T5).2 = (g, o) :=
    ⟨_, _, rfl⟩
  have hd1 : prefixesUp T1.dropLast = [] := by decide
  have hd2 : prefixesUp T2.dropLast = [] := by decide
  have hd3 : prefixesUp T3.dropLast = [[".github"]] := by decide
  have hd4 : prefixesUp T4.dropLast = [[".codeium"]] := by decide
  have hd5 : prefixesUp T5.dropLast = [[".continue"]] := by decide
  have hbk_not_pre : ∀ (p : MPath) (x : String), bkName p ts ≠ [x] := by
    intro p x
    exact ne_of_length_ne (by simp [bkName])
  have hbp1 : ∀ p : MPath, ∀ r ∈ prefixesUp T1.dropLast, bkName p ts ≠ r := by
    intro p r hr; rw [hd1] at hr; exact absurd hr (List.not_mem_nil r)
  have hbp2 : ∀ p : MPath, ∀ r ∈ prefixesUp T2.dropLast, bkName p ts ≠ r := by
    intro p r hr; rw [hd2] at hr; exact absurd hr (List.not_mem_nil r)
  have hbp3 : ∀ p : MPath, ∀ r ∈ prefixesUp T3.dropLast, bkName p ts ≠ r := by
    intro p r hr; rw [hd3] at hr
    rcases List.mem_singleton.1 hr with rfl
    exact hbk_not_pre p _
  have hbp4 : ∀ p : MPath, ∀ r ∈ prefixesUp T4.dropLast, bkName p ts ≠ r := by
    intro p r hr; rw [hd4] at hr
    rcases List.mem_singleton.1 hr with rfl
    exact hbk_not_pre p _
  have hbp5 : ∀ p : MPath, ∀ r ∈ prefixesUp T5.dropLast, bkName p ts ≠ r := by
    intro p r hr; rw [hd5] at hr
    rcases List.mem_singleton.1 hr with rfl
    exact hbk_not_pre p _
  have hF1 : ∀ q, q ≠ T1 → q ≠ bkName T1 ts → (∀ r ∈ prefixesUp T1.dropLast, q ≠ r) →
      FS.get g1 q = FS.get fs q := by
    intro q h1 h2 h3
    have hh := ccl_frame cwd fs MASTER_P T1 ts us (f T1).1 (f T1).2 q h1 h2 h3
    rw [hs1] at hh
    exact hh
  have hF2 : ∀ q, q ≠ T2 → q ≠ bkName T2 ts → (∀ r ∈ prefixesUp T2.dropLast, q ≠ r) →
      FS.get g2 q = FS.get g1 q := by
    intro q h1 h2 h3
    have hh := ccl_frame cwd g1 MASTER_P T2 ts us (f T2).1 (f T2).2 q h1 h2 h3
    rw [hs2] at hh
    exact hh
  have hF3 : ∀ q, q ≠ T3 → q ≠ bkName T3 ts → (∀ r ∈ prefixesUp T3.dropLast, q ≠ r) →
      FS.get g3 q = FS.get g2 q := by
    intro q h1 h2 h3
    have hh := ccl_frame cwd g2 MASTER_P T3 ts us (f T3).1 (f T3).2 q h1 h2 h3
    rw [hs3] at hh
    exact hh
  have hF4 : ∀ q, q ≠ T4 → q ≠ bkName T4 ts → (∀ r ∈ prefixesUp T4.dropLast, q ≠ r) →
      FS.get g4 q = FS.get g3 q := by
    intro q h1 h2 h3
    have hh := ccl_frame cwd g3 MASTER_P T4 ts us (f T4).1 (f T4).2 q h1 h2 h3
    rw [hs4] at hh
    exact hh
  have hF5 : ∀ q, q ≠ T5 → q ≠ bkName T5 ts → (∀ r ∈ prefixesUp T5.dropLast, q ≠ r) →
      FS.get g5 q = FS.get g4 q := by
    intro q h1 h2 h3
    have hh := ccl_frame cwd g4 MASTER_P T5 ts us (f T5).1 (f T5).2 q h1 h2 h3
    rw [hs5] at hh
    exact hh
  have hU1 : ∀ q, q ≠ T1 → q ≠ bkName T1 ts →
      (FS.get g1 q = FS.get fs q ∨ FS.get g1 q = some FSNode.dir) := by
    intro q h1 h2
    have hh := ccl_unch_or_dir cwd fs MASTER_P T1 ts us (f T1).1 (f T1).2 q h1 h2
    rw [hs1] at hh
    exact hh
  have hU2 : ∀ q, q ≠ T2 → q ≠ bkName T2 ts →
      (FS.get g2 q = FS.get g1 q ∨ FS.get g2 q = some FSNode.dir) := by
    intro q h1 h2
    have hh := ccl_unch_or_dir cwd g1 MASTER_P T2 ts us (f T2).1 (f T2).2 q h1 h2
    rw [hs2] at hh
    exact hh
  have hU3 : ∀ q, q ≠ T3 → q ≠ bkName T3 ts →
      (FS.get g3 q = FS.get g2 q ∨ FS.get g3 q = some FSNode.dir) := by
    intro q h1 h2
    have hh := ccl_unch_or_dir cwd g2 MASTER_P T3 ts us (f T3).1 (f T3).2 q h1 h2
    rw [hs3] at hh
    exact hh
  have hU4 : ∀ q, q ≠ T4 → q ≠ bkName T4 ts →
      (FS.get g4 q = FS.get g3 q ∨ FS.get g4 q = some FSNode.dir) := by
    intro q h1 h2
    have hh := ccl_unch_or_dir cwd g3 MASTER_P T4 ts us (f T4).1 (f T4).2 q h1 h2
    rw [hs4] at hh
    exact hh
  have hstepBD : ∀ a b : FS,
      (FS.get b BD_P = FS.get a BD_P ∨ FS.get b BD_P = some FSNode.dir) →
      FS.get a BD_P = some FSNode.dir → FS.get b BD_P = some FSNode.dir := by
    intro a b h hA2
    rcases h with h | h
    · rw [h]; exact hA2
    · exact h
  have hstepDN : ∀ (a b : FS) (q : MPath),
      (FS.get a q = some FSNode.dir ∨ FS.get a q = none) →
      (FS.get b q = FS.get a q ∨ FS.get b q = some FSNode.dir) →
      (FS.get b q = some FSNode.dir ∨ FS.get b q = none) := by
    intro a b q ha2 hb2
    rcases hb2 with hb2 | hb2
    · rw [hb2]; exact ha2
    · exact Or.inl hb2
  -- state facts after each step
  have hM1 : FS.get g1 MASTER_P = some (.file m) := by
    rw [hF1 _ (by decide) (MASTER_ne_bk T1 ts) (by decide)]; exact hM
  have hM2 : FS.get g2 MASTER_P = some (.file m) := by
    rw [hF2 _ (by decide) (MASTER_ne_bk T2 ts) (by decide)]; exact hM1
  have hM3 : FS.get g3 MASTER_P = some (.file m) := by
    rw [hF3 _ (by decide) (MASTER_ne_bk T3 ts) (by decide)]; exact hM2
  have hM4 : FS.get g4 MASTER_P = some (.file m) := by
    rw [hF4 _ (by decide) (MASTER_ne_bk T4 ts) (by decide)]; exact hM3
  have hM5 : FS.get g5 MASTER_P = some (.file m) := by
    rw [hF5 _ (by decide) (MASTER_ne_bk T5 ts) (by decide)]; exact hM4
  have hBD1 : FS.get g1 BD_P = some FSNode.dir :=
    hstepBD _ _ (hU1 BD_P (by decide) (BD_ne_bk T1 ts)) hBD
  have hBD2 : FS.get g2 BD_P = some FSNode.dir :=
    hstepBD _ _ (hU2 BD_P (by decide) (BD_ne_bk T2 ts)) hBD1
  have hBD3 : FS.get g3 BD_P = some FSNode.dir :=
    hstepBD _ _ (hU3 BD_P (by decide) (BD_ne_bk T3 ts)) hBD2
  have hBD4 : FS.get g4 BD_P = some FSNode.dir :=
    hstepBD _ _ (hU4 BD_P (by decide) (BD_ne_bk T4 ts)) hBD3
  have hGH2 : FS.get g2 [".github"] = some FSNode.dir ∨ FS.get g2 [".github"] = none :=
    hstepDN _ _ _ (hstepDN _ _ _ hGH (hU1 _ (by decide) (ne_bk_of_short _ _ _)))
      (hU2 _ (by decide) (ne_bk_of_short _ _ _))
  have hCD3 : FS.get g3 [".codeium"] = some FSNode.dir ∨ FS.get g3 [".codeium"] = none :=
    hstepDN _ _ _ (hstepDN _ _ _ (hstepDN _ _ _ hCD
        (hU1 _ (by decide) (ne_bk_of_short _ _ _)))
      (hU2 _ (by decide) (ne_bk_of_short _ _ _)))
      (hU3 _ (by decide) (ne_bk_of_short _ _ _))
  have hCN4 : FS.get g4 [".continue"] = some FSNode.dir ∨ FS.get g4 [".continue"] = none :=
    hstepDN _ _ _ (hstepDN _ _ _ (hstepDN _ _ _ (hstepDN _ _ _ hCN
          (hU1 _ (by decide) (ne_bk_of_short _ _ _)))
        (hU2 _ (by decide) (ne_bk_of_short _ _ _)))
      (hU3 _ (by decide) (ne_bk_of_short _ _ _)))
      (hU4 _ (by decide) (ne_bk_of_short _ _ _))
  have hT2g1 : (∃ c, FS.get g1 T2 = some (.file c)) ∨
      ∃ t, FS.get g1 T2 = some (.symlink t) := by
    rw [hF1 T2 (by decide) (T2_ne_bk T1 ts) (by decide)]; exact hT2
  have hT3g2 : (∃ c, FS.get g2 T3 = some (.file c)) ∨
      ∃ t, FS.get g2 T3 = some (.symlink t) := by
    rw [hF2 T3 (by decide) (T3_ne_bk T2 ts) (by decide),
      hF1 T3 (by decide) (T3_ne_bk T1 ts) (by decide)]
    exact hT3
  have hT4g3 : (∃ c, FS.get g3 T4 = some (.file c)) ∨
      ∃ t, FS.get g3 T4 = some (.symlink t) := by
    rw [hF3 T4 (by decide) (T4_ne_bk T3 ts) (by decide),
      hF2 T4 (by decide) (T4_ne_bk T2 ts) (by decide),
      hF1 T4 (by decide) (T4_ne_bk T1 ts) (by decide)]
    exact hT4
  have hT5g4 : (∃ c, FS.get g4 T5 = some (.file c)) ∨
      ∃ t, FS.get g4 T5 = some (.symlink t) := by
    rw [hF4 T5 (by decide) (T5_ne_bk T4 ts) (by decide),
      hF3 T5 (by decide) (T5_ne_bk T3 ts) (by decide),
      hF2 T5 (by decide) (T5_ne_bk T2 ts) (by decide),
      hF1 T5 (by decide) (T5_ne_bk T1 ts) (by decide)]
    exact hT5
  have hW2g1 : canWriteAt g1 (bkName T2 ts) = true := by
    rw [canWriteAt_congr g1 fs _ (hF1 _ (Ne.symm (T1_ne_bk T2 ts))
      (bkName_ne_of_lastName_ne T2 T1 ts (by decide)) (hbp1 T2))]
    exact hW2
  have hW3g2 : canWriteAt g2 (bkName T3 ts) = true := by
    rw [canWriteAt_congr g2 g1 _ (hF2 _ (Ne.symm (T2_ne_bk T3 ts))
      (bkName_ne_of_lastName_ne T3 T2 ts (by decide)) (hbp2 T3))]
    rw [canWriteAt_congr g1 fs _ (hF1 _ (Ne.symm (T1_ne_bk T3 ts))
      (bkName_ne_of_lastName_ne T3 T1 ts (by decide)) (hbp1 T3))]
    exact hW3
  have hW4g3 : canWriteAt g3 (bkName T4 ts) = true := by
    rw [canWriteAt_congr g3 g2 _ (hF3 _ (Ne.symm (T3_ne_bk T4 ts))
      (bkName_ne_of_lastName_ne T4 T3 ts (by decide)) (hbp3 T4))]
    rw [canWriteAt_congr g2 g1 _ (hF2 _ (Ne.symm (T2_ne_bk T4 ts))
      (bkName_ne_of_lastName_ne T4 T2 ts (by decide)) (hbp2 T4))]
    rw [canWriteAt_congr g1 fs _ (hF1 _ (Ne.symm (T1_ne_bk T4 ts))
      (bkName_ne_of_lastName_ne T4 T1 ts (by decide)) (hbp1 T4))]
    exact hW4
  have hW5g4 : canWriteAt g4 (bkName T5 ts) = true := by
    rw [canWriteAt_congr g4 g3 _ (hF4 _ (Ne.symm (T4_ne_bk T5 ts))
      (bkName_ne_of_lastName_ne T5 T4 ts (by decide)) (hbp4 T5))]
    rw [canWriteAt_congr g3 g2 _ (hF3 _ (Ne.symm (T3_ne_bk T5 ts))
      (bkName_ne_of_lastName_ne T5 T3 ts (by decide)) (hbp3 T5))]
    rw [canWriteAt_congr g2 g1 _ (hF2 _ (Ne.symm (T2_ne_bk T5 ts))
      (bkName_ne_of_lastName_ne T5 T2 ts (by decide)) (hbp2 T5))]
    rw [canWriteAt_congr g1 fs _ (hF1 _ (Ne.symm (T1_ne_bk T5 ts))
      (bkName_ne_of_lastName_ne T5 T1 ts (by decide)) (hbp1 T5))]
    exact hW5
  -- run the five scenario steps
  have St1 := ccl_step_run cwd fs T1 ts us (f T1).1 (f T1).2 m hM hBD
    (by decide) (Or.inl (by decide)) (Or.inl (by decide)) hT1 hW1
    (by decide) (MASTER_ne_bk T1 ts) (by decide) (by decide) (hbp1 T1)
  have St2 := ccl_step_run cwd g1 T2 ts us (f T2).1 (f T2).2 m hM1 hBD1
    (by decide) (Or.inl (by decide)) (Or.inl (by decide)) hT2g1 hW2g1
    (by decide) (MASTER_ne_bk T2 ts) (by decide) (by decide) (hbp2 T2)
  have St3 := ccl_step_run cwd g2 T3 ts us (f T3).1 (f T3).2 m hM2 hBD2
    (by decide) (Or.inr ⟨".github", by decide⟩)
    (by rcases hGH2 with h | h
        · exact Or.inr (Or.inl h)
        · exact Or.inr (Or.inr h))
    hT3g2 hW3g2
    (by decide) (MASTER_ne_bk T3 ts) (by decide) (by decide) (hbp3 T3)
  have St4 := ccl_step_run cwd g3 T4 ts us (f T4).1 (f T4).2 m hM3 hBD3
    (by decide) (Or.inr ⟨".codeium", by decide⟩)
    (by rcases hCD3 with h | h
        · exact Or.inr (Or.inl h)
        · exact Or.inr (Or.inr h))
    hT4g3 hW4g3
    (by decide) (MASTER_ne_bk T4 ts) (by decide) (by decide) (hbp4 T4)
  have St5 := ccl_step_run cwd g4 T5 ts us (f T5).1 (f T5).2 m hM4 hBD4
    (by decide) (Or.inr ⟨".continue", by decide⟩)
    (by rcases hCN4 with h | h
        · exact Or.inr (Or.inl h)
        · exact Or.inr (Or.inr h))
    hT5g4 hW5g4
    (by decide) (MASTER_ne_bk T5 ts) (by decide) (by decide) (hbp5 T5)
  have hok1 : ok1 = (!(f T1).1 && !(f T1).2) := by
    have h := St1.1; rw [hs1] at h; exact h
  have hok2 : ok2 = (!(f T2).1 && !(f T2).2) := by
    have h := St2.1; rw [hs2] at h; exact h
  have hok3 : ok3 = (!(f T3).1 && !(f T3).2) := by
    have h := St3.1; rw [hs3] at h; exact h
  have hok4 : ok4 = (!(f T4).1 && !(f T4).2) := by
    have h := St4.1; rw [hs4] at h; exact h
  have hok5 : ok5 = (!(f T5).1 && !(f T5).2) := by
    have h := St5.1; rw [hs5] at h; exact h
  have hN1 : (!(f T1).1 && !(f T1).2) = true →
      FS.get g1 T1 = some (if us then FSNode.symlink (cwd ++ MASTER_P) else .file m) := by
    intro hok
    have h := St1.2 hok; rw [hs1] at h; exact h
  have hN2 : (!(f T2).1 && !(f T2).2) = true →
      FS.get g2 T2 = some (if us then FSNode.symlink (cwd ++ MASTER_P) else .file m) := by
    intro hok
    have h := St2.2 hok; rw [hs2] at h; exact h
  have hN3 : (!(f T3).1 && !(f T3).2) = true →
      FS.get g3 T3 = some (if us then FSNode.symlink (cwd ++ MASTER_P) else .file m) := by
    intro hok
    have h := St3.2 hok; rw [hs3] at h; exact h
  have hN4 : (!(f T4).1 && !(f T4).2) = true →
      FS.get g4 T4 = some (if us then FSNode.symlink (cwd ++ MASTER_P) else .file m) := by
    intro hok
    have h := St4.2 hok; rw [hs4] at h; exact h
  have hN5 : (!(f T5).1 && !(f T5).2) = true →
      FS.get g5 T5 = some (if us then FSNode.symlink (cwd ++ MASTER_P) else .file m) := by
    intro hok
    have h := St5.2 hok; rw [hs5] at h; exact h
  -- aider step succeeds
  have hA5 : FS.get g5 AIDER_P = none ∨ ∃ a, FS.get g5 AIDER_P = some (.file a) := by
    have h0 : FS.get g5 AIDER_P = FS.get fs AIDER_P := by
      rw [hF5 _ (by decide) (AIDER_ne_bk T5 ts) (by decide),
        hF4 _ (by decide) (AIDER_ne_bk T4 ts) (by decide),
        hF3 _ (by decide) (AIDER_ne_bk T3 ts) (by decide),
        hF2 _ (by decide) (AIDER_ne_bk T2 ts) (by decide),
        hF1 _ (by decide) (AIDER_ne_bk T1 ts) (by decide)]
    rw [h0]
    exact hA
  obtain ⟨fs4, haeq⟩ := create_aider_ok_of_benign cwd g5 hA5
  have hAid := aider_ok_spec cwd g5 fs4 haeq
  have hmeq : create_master_config cwd fs = some fs := by
    simp [create_master_config, FS.pexists_of_get_file cwd fs MASTER_P m hM]
  have hbeq : create_backup_dir cwd fs = .ok fs := cbd_skip cwd fs hBD
  have hfold : AI_CONFIG_PATHS.foldl (cclStep cwd ts us f) (fs, 0) =
      (g5, (if ok1 = true then 1 else 0) + (if ok2 = true then 1 else 0) +
        (if ok3 = true then 1 else 0) + (if ok4 = true then 1 else 0) +
        (if ok5 = true then 1 else 0)) := by
    simp [AI_CONFIG_PATHS, List.foldl, cclStep, hs1, hs2, hs3, hs4, hs5]
  have heq : main_setup cwd fs fc w cs priv ts f =
      ⟨fs4,
       (if ok1 = true then 1 else 0) + (if ok2 = true then 1 else 0) +
         (if ok3 = true then 1 else 0) + (if ok4 = true then 1 else 0) +
         (if ok5 = true then 1 else 0),
       AI_CONFIG_PATHS.length, verify_setup cwd fs4, us, false⟩ := by
    simp [main_setup, hmeq, hbeq, hus, hfold, haeq]
  -- final-state facts
  have hMf : FS.get fs4 MASTER_P = some (.file m) := by
    rw [hAid.1 _ (by decide)]; exact hM5
  have hGIf : FS.get fs4 GI_P = FS.get fs GI_P := by
    rw [hAid.1 _ (by decide),
      hF5 _ (by decide) (GI_ne_bk T5 ts) (by decide),
      hF4 _ (by decide) (GI_ne_bk T4 ts) (by decide),
      hF3 _ (by decide) (GI_ne_bk T3 ts) (by decide),
      hF2 _ (by decide) (GI_ne_bk T2 ts) (by decide),
      hF1 _ (by decide) (GI_ne_bk T1 ts) (by decide)]
  have hT1f : (!(f T1).1 && !(f T1).2) = true → FS.get fs4 T1 =
      some (if us then FSNode.symlink (cwd ++ MASTER_P) else .file m) := by
    intro hok
    rw [hAid.1 T1 (by decide),
      hF5 T1 (by decide) (T1_ne_bk T5 ts) (by decide),
      hF4 T1 (by decide) (T1_ne_bk T4 ts) (by decide),
      hF3 T1 (by decide) (T1_ne_bk T3 ts) (by decide),
      hF2 T1 (by decide) (T1_ne_bk T2 ts) (by decide)]
    exact hN1 hok
  have hT2f : (!(f T2).1 && !(f T2).2) = true → FS.get fs4 T2 =
      some (if us then FSNode.symlink (cwd ++ MASTER_P) else .file m) := by
    intro hok
    rw [hAid.1 T2 (by decide),
      hF5 T2 (by decide) (T2_ne_bk T5 ts) (by decide),
      hF4 T2 (by decide) (T2_ne_bk T4 ts) (by decide),
      hF3 T2 (by decide) (T2_ne_bk T3 ts) (by decide)]
    exact hN2 hok
  have hT3f : (!(f T3).1 && !(f T3).2) = true → FS.get fs4 T3 =
      some (if us then FSNode.symlink (cwd ++ MASTER_P) else .file m) := by
    intro hok
    rw [hAid.1 T3 (by decide),
      hF5 T3 (by decide) (T3_ne_bk T5 ts) (by decide),
      hF4 T3 (by decide) (T3_ne_bk T4 ts) (by decide)]
    exact hN3 hok
  have hT4f : (!(f T4).1 && !(f T4).2) = true → FS.get fs4 T4 =
      some (if us then FSNode.symlink (cwd ++ MASTER_P) else .file m) := by
    intro hok
    rw [hAid.1 T4 (by decide),
      hF5 T4 (by decide) (T4_ne_bk T5 ts) (by decide)]
    exact hN4 hok
  have hT5f : (!(f T5).1 && !(f T5).2) = true → FS.get fs4 T5 =
      some (if us then FSNode.symlink (cwd ++ MASTER_P) else .file m) := by
    intro hok
    rw [hAid.1 T5 (by decide)]
    exact hN5 hok
  have hverf : (∀ p, f p = (false, false)) → verify_setup cwd fs4 = true := by
    intro hff
    have hoktrue : ∀ p : MPath, (!(f p).1 && !(f p).2) = true := by
      intro p
      rw [hff p]
      rfl
    have hexM : FS.pexists cwd fs4 MASTER_P = true :=
      FS.pexists_of_get_file cwd fs4 MASTER_P _ hMf
    have hexT : ∀ L : MPath,
        FS.get fs4 L = some (if us then FSNode.symlink (cwd ++ MASTER_P) else .file m) →
        FS.pexists cwd fs4 L = true := by
      intro L hL
      cases us
      · simp only [Bool.false_eq_true, if_false] at hL
        exact FS.pexists_of_get_file cwd fs4 L _ hL
      · simp only [if_true] at hL
        exact FS.pexists_of_link_to_file cwd fs4 L MASTER_P _ hL hMf
    rw [verify_setup_iff]
    exact ⟨hexM, hexT T1 (hT1f (hoktrue T1)), hexT T2 (hT2f (hoktrue T2)),
      hexT T3 (hT3f (hoktrue T3)), hexT T4 (hT4f (hoktrue T4)),
      hexT T5 (hT5f (hoktrue T5))⟩
  simp only [heq, hus]
  refine ⟨by trivial, by trivial, ?_, hGIf, hMf, hT1f, hT2f, hT3f, hT4f, hT5f, hverf⟩
  rw [hok1, hok2, hok3, hok4, hok5]

/-! ## Claim C6: per-target failures are isolated -/

/-- C6.  On a state where the master file is a regular file, the backup
directory exists, the targets' parent directories are absent or directories,
the aider entry is benign, every target pre-exists (as a regular file or a
symlink), and each backup destination is writable: whatever per-target faults
`f` injects into the backup step or the link/copy step, the run does not
raise, the summary reports a success count out of the total of 5 — each
target contributing exactly 1 when its two steps are fault-free — and every
fault-free target is still materialized, even when other targets failed. -/
theorem setup_partial_failure_spec :
    ∀ (cwd : AbsPath) (fs : FS) (fc w cs priv : Bool) (ts : String)
      (f : MPath → Bool × Bool) (m : String),
      FS.get fs MASTER_P = some (.file m) →
      FS.get fs BD_P = some FSNode.dir →
      (FS.get fs [".github"] = some FSNode.dir ∨ FS.get fs [".github"] = none) →
      (FS.get fs [".codeium"] = some FSNode.dir ∨ FS.get fs [".codeium"] = none) →
      (FS.get fs [".continue"] = some FSNode.dir ∨ FS.get fs [".continue"] = none) →
      (FS.get fs AIDER_P = none ∨ ∃ a, FS.get fs AIDER_P = some (.file a)) →
      ((∃ c, FS.get fs T1 = some (.file c)) ∨ ∃ t, FS.get fs T1 = some (.symlink t)) →
      ((∃ c, FS.get fs T2 = some (.file c)) ∨ ∃ t, FS.get fs T2 = some (.symlink t)) →
      ((∃ c, FS.get fs T3 = some (.file c)) ∨ ∃ t, FS.get fs T3 = some (.symlink t)) →
      ((∃ c, FS.get fs T4 = some (.file c)) ∨ ∃ t, FS.get fs T4 = some (.symlink t)) →
      ((∃ c, FS.get fs T5 = some (.file c)) ∨ ∃ t, FS.get fs T5 = some (.symlink t)) →
      canWriteAt fs (bkName T1 ts) = true →
      canWriteAt fs (bkName T2 ts) = true →
      canWriteAt fs (bkName T3 ts) = true →
      canWriteAt fs (bkName T4 ts) = true →
      canWriteAt fs (bkName T5 ts) = true →
      (main_setup cwd fs fc w cs priv ts f).raised = false ∧
      (main_setup cwd fs fc w cs priv ts f).total_count = 5 ∧
      (main_setup cwd fs fc w cs priv ts f).success_count =
        ((if !(f T1).1 && !(f T1).2 then 1 else 0) +
         (if !(f T2).1 && !(f T2).2 then 1 else 0) +
         (if !(f T3).1 && !(f T3).2 then 1 else 0) +
         (if !(f T4).1 && !(f T4).2 then 1 else 0) +
         (if !(f T5).1 && !(f T5).2 then 1 else 0)) ∧
      ((!(f T1).1 && !(f T1).2) = true →
        FS.get (main_setup cwd fs fc w cs priv ts f).fs T1 =
          some (if use_symlinks_of fc w cs priv then FSNode.symlink (cwd ++ MASTER_P)
            else FSNode.file m)) ∧
      ((!(f T2).1 && !(f T2).2) = true →
        FS.get (main_setup cwd fs fc w cs priv ts f).fs T2 =
          some (if use_symlinks_of fc w cs priv then FSNode.symlink (cwd ++ MASTER_P)
            else FSNode.file m)) ∧
      ((!(f T3).1 && !(f T3).2) = true →
        FS.get (main_setup cwd fs fc w cs priv ts f).fs T3 =
          some (if use_symlinks_of fc w cs priv then FSNode.symlink (cwd ++ MASTER_P)
            else FSNode.file m)) ∧
      ((!(f T4).1 && !(f T4).2) = true →
        FS.get (main_setup cwd fs fc w cs priv ts f).fs T4 =
          some (if use_symlinks_of fc w cs priv then FSNode.symlink (cwd ++ MASTER_P)
            else FSNode.file m)) ∧
      ((!(f T5).1 && !(f T5).2) = true →
        FS.get (main_setup cwd fs fc w cs priv ts f).fs T5 =
          some (if use_symlinks_of fc w cs priv then FSNode.symlink (cwd ++ MASTER_P)
            else FSNode.file m)) := by
  intro cwd fs fc w cs priv ts f m hM hBD hGH hCD hCN hA hT1 hT2 hT3 hT4 hT5
    hW1 hW2 hW3 hW4 hW5
  obtain ⟨h1, h2, h3, _, _, h6, h7, h8, h9, h10, _⟩ :=
    setup_scenario cwd fs fc w cs priv ts f m hM hBD hGH hCD hCN hA
      hT1 hT2 hT3 hT4 hT5 hW1 hW2 hW3 hW4 hW5
  exact ⟨h1, h2, h3, h6, h7, h8, h9, h10⟩

/-- C6 witness: with a backup-step fault on the second target and a copy-step
fault on the third, the run completes, reports 3 of 5 successes, and the
fault-free first target is still materialized. -/
theorem setup_partial_failure_spec_witness :
    (main_setup CWD0 FS1 true false false false TS0 faultAt23).raised = false ∧
    (main_setup CWD0 FS1 true false false false TS0 faultAt23).total_count = 5 ∧
    (main_setup CWD0 FS1 true false false false TS0 faultAt23).success_count = 3 ∧
    FS.get (main_setup CWD0 FS1 true false false false TS0 faultAt23).fs T1 =
      some (FSNode.file "master text") := by
  obtain ⟨h1, h2, h3, h4, _, _, _, _⟩ :=
    setup_partial_failure_spec CWD0 FS1 true false false false TS0 faultAt23 "master text"
      (by decide) (by decide) (Or.inl (by decide)) (Or.inl (by decide)) (Or.inl (by decide))
      (Or.inl (by decide))
      (Or.inl ⟨"c1", by decide⟩) (Or.inl ⟨"c2", by decide⟩) (Or.inl ⟨"c3", by decide⟩)
      (Or.inl ⟨"c4", by decide⟩) (Or.inl ⟨"c5", by decide⟩)
      (by decide) (by decide) (by decide) (by decide) (by decide)
  refine ⟨h1, h2, h3.trans (by decide), ?_⟩
  have h5 := h4 (by decide)
  rw [h5]
  decide

/-! ## Claim C8: full setup is idempotent -/

/-- C8.  From a benign initial state (master absent or a regular file, backup
directory absent or a directory, target parent directories absent or
directories, aider entry absent or a regular file, and the second run's
backup destinations writable), if a first full-setup run succeeds (no raise,
5/5 successes), then a fault-free second run from the state it left behind
also completes with 5/5 successes, both runs' final verification results are
`true` (hence equal), the `.gitignore` ignore entry is appended at most once
across both runs (an initially absent `.gitignore` is never created), and the
content of an initially existing master file is untouched by both runs — the
template is written only when the master file was absent. -/
theorem setup_idempotent_spec :
    ∀ (cwd : AbsPath) (fs : FS) (fc w cs priv fc2 w2 cs2 priv2 : Bool) (ts ts2 : String)
      (f : MPath → Bool × Bool),
      (FS.get fs MASTER_P = none ∨ ∃ m0, FS.get fs MASTER_P = some (.file m0)) →
      (FS.get fs BD_P = none ∨ FS.get fs BD_P = some FSNode.dir) →
      (FS.get fs [".github"] = some FSNode.dir ∨ FS.get fs [".github"] = none) →
      (FS.get fs [".codeium"] = some FSNode.dir ∨ FS.get fs [".codeium"] = none) →
      (FS.get fs [".continue"] = some FSNode.dir ∨ FS.get fs [".continue"] = none) →
      (FS.get fs AIDER_P = none ∨ ∃ a, FS.get fs AIDER_P = some (.file a)) →
      canWriteAt fs (bkName T1 ts2) = true →
      canWriteAt fs (bkName T2 ts2) = true →
      canWriteAt fs (bkName T3 ts2) = true →
      canWriteAt fs (bkName T4 ts2) = true →
      canWriteAt fs (bkName T5 ts2) = true →
      (main_setup cwd fs fc w cs priv ts f).raised = false →
      (main_setup cwd fs fc w cs priv ts f).success_count = 5 →
      (main_setup cwd (main_setup cwd fs fc w cs priv ts f).fs
          fc2 w2 cs2 priv2 ts2 noFaults).raised = false ∧
      (main_setup cwd (main_setup cwd fs fc w cs priv ts f).fs
          fc2 w2 cs2 priv2 ts2 noFaults).success_count = 5 ∧
      (main_setup cwd fs fc w cs priv ts f).verify_result = true ∧
      (main_setup cwd (main_setup cwd fs fc w cs priv ts f).fs
          fc2 w2 cs2 priv2 ts2 noFaults).verify_result =
        (main_setup cwd fs fc w cs priv ts f).verify_result ∧
      (∀ g, FS.get fs GI_P = some (.file g) →
        FS.get (main_setup cwd (main_setup cwd fs fc w cs priv ts f).fs
            fc2 w2 cs2 priv2 ts2 noFaults).fs GI_P = some (.file g) ∨
        FS.get (main_setup cwd (main_setup cwd fs fc w cs priv ts f).fs
            fc2 w2 cs2 priv2 ts2 noFaults).fs GI_P =
          some (.file (g ++ GITIGNORE_ENTRY))) ∧
      (FS.get fs GI_P = none →
        FS.get (main_setup cwd (main_setup cwd fs fc w cs priv ts f).fs
            fc2 w2 cs2 priv2 ts2 noFaults).fs GI_P = none) ∧
      (∀ m0, FS.get fs MASTER_P = some (.file m0) →
        FS.get (main_setup cwd (main_setup cwd fs fc w cs priv ts f).fs
            fc2 w2 cs2 priv2 ts2 noFaults).fs MASTER_P = some (.file m0)) ∧
      (FS.get fs MASTER_P = none →
        FS.get (main_setup cwd (main_setup cwd fs fc w cs priv ts f).fs
            fc2 w2 cs2 priv2 ts2 noFaults).fs MASTER_P =
          some (.file MASTER_TEMPLATE)) := by
  intro cwd fs fc w cs priv fc2 w2 cs2 priv2 ts ts2 f
    hMb hBDb hGHb hCDb hCNb hAb hw1 hw2 hw3 hw4 hw5 hraised hcnt
  obtain ⟨hP1M, hP1T, hP1V, hP1BD, hP1Par, hP1A, hP1GIf, hP1GIn, hP1BK⟩ :=
    setup_post_of_success cwd fs fc w cs priv ts f hMb hraised hcnt
  obtain ⟨us1, hus1⟩ : ∃ b, use_symlinks_of fc w cs priv = b := ⟨_, rfl⟩
  rw [hus1] at hP1T
  have hr1M : FS.get (main_setup cwd fs fc w cs priv ts f).fs MASTER_P =
      some (.file (mAfter fs)) := hP1M
  have hr1BD : FS.get (main_setup cwd fs fc w cs priv ts f).fs BD_P = some FSNode.dir :=
    hP1BD hBDb
  have hparQ : ∀ P, P ∈ PARENT_DIRS →
      (FS.get fs P = some FSNode.dir ∨ FS.get fs P = none) →
      (FS.get (main_setup cwd fs fc w cs priv ts f).fs P = some FSNode.dir ∨
       FS.get (main_setup cwd fs fc w cs priv ts f).fs P = none) := by
    intro P hP hben
    rcases hP1Par P hP with h | h
    · rw [h]; exact hben
    · exact Or.inl h
  have hr1GH := hparQ [".github"] (by decide) hGHb
  have hr1CD := hparQ [".codeium"] (by decide) hCDb
  have hr1CN := hparQ [".continue"] (by decide) hCNb
  have hr1A : FS.get (main_setup cwd fs fc w cs priv ts f).fs AIDER_P = none ∨
      ∃ a, FS.get (main_setup cwd fs fc w cs priv ts f).fs AIDER_P = some (.file a) :=
    Or.inr (hP1A hAb)
  have hTgen : ∀ L : MPath,
      FS.get (main_setup cwd fs fc w cs priv ts f).fs L =
        some (if us1 then FSNode.symlink (cwd ++ MASTER_P) else FSNode.file (mAfter fs)) →
      (∃ c, FS.get (main_setup cwd fs fc w cs priv ts f).fs L = some (.file c)) ∨
      ∃ t, FS.get (main_setup cwd fs fc w cs priv ts f).fs L = some (.symlink t) := by
    intro L hL
    cases us1
    · simp only [Bool.false_eq_true, if_false] at hL
      exact Or.inl ⟨_, hL⟩
    · simp only [if_true] at hL
      exact Or.inr ⟨_, hL⟩
  have hr1T1 := hTgen T1 (hP1T T1 (by decide))
  have hr1T2 := hTgen T2 (hP1T T2 (by decide))
  have hr1T3 := hTgen T3 (hP1T T3 (by decide))
  have hr1T4 := hTgen T4 (hP1T T4 (by decide))
  have hr1T5 := hTgen T5 (hP1T T5 (by decide))
  have hWgen : ∀ (L : MPath), canWriteAt fs (bkName L ts2) = true →
      canWriteAt (main_setup cwd fs fc w cs priv ts f).fs (bkName L ts2) = true := by
    intro L hw
    have hb : bkName L ts2 = [BACKUP_DIR_S, lastName L ++ "_" ++ ts2] := rfl
    rw [hb] at hw ⊢
    rcases hP1BK (lastName L ++ "_" ++ ts2) with h | ⟨c, h⟩
    · rw [canWriteAt_congr _ fs _ h]
      exact hw
    · simp [canWriteAt, h]
  have hr1W1 := hWgen T1 hw1
  have hr1W2 := hWgen T2 hw2
  have hr1W3 := hWgen T3 hw3
  have hr1W4 := hWgen T4 hw4
  have hr1W5 := hWgen T5 hw5
  obtain ⟨h1, h2, h3, h4, h5, _, _, _, _, _, h11⟩ :=
    setup_scenario cwd (main_setup cwd fs fc w cs priv ts f).fs
      fc2 w2 cs2 priv2 ts2 noFaults (mAfter fs)
      hr1M hr1BD hr1GH hr1CD hr1CN hr1A hr1T1 hr1T2 hr1T3 hr1T4 hr1T5
      hr1W1 hr1W2 hr1W3 hr1W4 hr1W5
  have hver2 : (main_setup cwd (main_setup cwd fs fc w cs priv ts f).fs
      fc2 w2 cs2 priv2 ts2 noFaults).verify_result = true := h11 (fun p => rfl)
  refine ⟨h1, h3.trans (by decide), hP1V, ?_, ?_, ?_, ?_, ?_⟩
  · rw [hver2, hP1V]
  · intro g hg
    rw [h4]
    exact hP1GIf g hg
  · intro hg
    rw [h4]
    exact hP1GIn hg
  · intro m0 hm0
    have hmA : mAfter fs = m0 := by
      rw [mAfter, hm0]
    rw [← hmA]
    exact h5
  · intro hnone
    have hmA : mAfter fs = MASTER_TEMPLATE := by
      rw [mAfter, hnone]
    rw [← hmA]
    exact h5

/-- C8 witness: two consecutive fault-free runs from a concrete state with a
pre-existing `.gitignore` and `CLAUDE.md`: the second run succeeds, both
verification results agree, and the ignore entry appears exactly once. -/
theorem setup_idempotent_spec_witness :
    (main_setup CWD0 (main_setup CWD0 FS0 false false true false TS0 noFaults).fs
        false false true false TS0 noFaults).raised = false ∧
    (main_setup CWD0 (main_setup CWD0 FS0 false false true false TS0 noFaults).fs
        false false true false TS0 noFaults).success_count = 5 ∧
    (main_setup CWD0 (main_setup CWD0 FS0 false false true false TS0 noFaults).fs
        false false true false TS0 noFaults).verify_result =
      (main_setup CWD0 FS0 false false true false TS0 noFaults).verify_result ∧
    (FS.get (main_setup CWD0 (main_setup CWD0 FS0 false false true false TS0 noFaults).fs
        false false true false TS0 noFaults).fs GI_P =
      some (.file "node_modules/\n") ∨
     FS.get (main_setup CWD0 (main_setup CWD0 FS0 false false true false TS0 noFaults).fs
        false false true false TS0 noFaults).fs GI_P =
      some (.file ("node_modules/\n" ++ GITIGNORE_ENTRY))) := by
  obtain ⟨h1, h2, _, h4, h5, _, _, _⟩ :=
    setup_idempotent_spec CWD0 FS0 false false true false false false true false TS0 TS0
      noFaults (Or.inl (by decide)) (Or.inl (by decide)) (Or.inr (by decide))
      (Or.inr (by decide)) (Or.inr (by decide)) (Or.inl (by decide))
      (by decide) (by decide) (by decide) (by decide) (by decide)
      (by decide) (by decide)
  exact ⟨h1, h2, h4, h5 "node_modules/\n" (by decide)⟩
